import Mathlib

/-!
Shallow embedding of the toy 16-bit virtual machine (`src/lib.rs`, `src/machine.rs`,
`src/ptr.rs`).

Modelling conventions:
* 16-bit machine words (`u16` / `VMSize`) are natural numbers taken modulo
  `W = 65536` wherever the Rust code performs `u16` arithmetic (release-mode
  wrapping semantics; the spec leaves overflow policy open).
* Bytes (`u8`) are naturals taken modulo 256; `set8` stores `data % 256`,
  matching the `as u8` casts at every call site.
* A Rust panic (out-of-bounds array index, or the `todo!()` catch-all in
  `execute`) is modelled as `none`; fallible operations return `Option`.
* The `Result<_, MachineError>` layer of `execute` / `step` is modelled as an
  `Option MachineError` component carried next to the post-state, because the
  Rust methods mutate `self` in place and keep those mutations when they
  return `Err`.
* The const-generic memory capacity `MEMORY` is the field `cap`; `memory` is a
  function `Nat → Nat` with the machine's accessors performing the bounds
  check, exactly as the Rust array indexing does.
-/

namespace ToyVM

/-- The `u16` modulus: `VMSize` is a 16-bit unsigned integer. -/
abbrev W : Nat := 65536

/-- Register index of IP, from `Registers::IP = 0x00`. -/
abbrev IP : Nat := 0

/-- Register index of SP, from `Registers::SP = 0x01`. -/
abbrev SP : Nat := 1

/-- Register index of FP, from `Registers::FP = 0x02`. -/
abbrev FP : Nat := 2

/-- Register index of ACC, from `Registers::ACC = 0x03`. -/
abbrev ACC : Nat := 3

/-- Register index of R1, from `Registers::R1 = 0x04`. -/
abbrev R1 : Nat := 4

/-- Register index of R8, from `Registers::R8 = 0x0B`. -/
abbrev R8 : Nat := 11

/-- The instruction set of the machine, from `enum Instructions` in `src/lib.rs`. -/
inductive Instructions where
  | MoveLitToReg
  | MoveRegToReg
  | MoveRegToMem
  | MoveMemToReg
  | AddRegReg
  | JmpNotEq
  | PushLit
  | PushReg
  | Pop
  | CallLit
  | CallReg
  | Ret
  | Hlt
deriving DecidableEq, Repr

/-- Error type of the machine, from `enum MachineError` in `src/lib.rs`. -/
inductive MachineError where
  | InvalidInstruction (b : Nat)
  | InvalidRegister (b : Nat)
deriving DecidableEq, Repr

/-- Opcode decoding: the `TryFromPrimitive` instance of `Instructions`, used by
`Machine::step` via `self.fetch().try_into()`.  Every byte equal to a declared
discriminant maps to its variant; anything else is `InvalidInstruction`
carrying the byte. -/
def decode (b : Nat) : Except MachineError Instructions :=
  if b = 0x10 then .ok .MoveLitToReg
  else if b = 0x11 then .ok .MoveRegToReg
  else if b = 0x12 then .ok .MoveRegToMem
  else if b = 0x13 then .ok .MoveMemToReg
  else if b = 0x14 then .ok .AddRegReg
  else if b = 0x15 then .ok .JmpNotEq
  else if b = 0x17 then .ok .PushLit
  else if b = 0x18 then .ok .PushReg
  else if b = 0x19 then .ok .Pop
  else if b = 0x5E then .ok .CallLit
  else if b = 0x5F then .ok .CallReg
  else if b = 0x60 then .ok .Ret
  else if b = 0xFF then .ok .Hlt
  else .error (.InvalidInstruction b)

/-- The machine state, from `struct Machine<const MEMORY: usize>`:
twelve 16-bit registers, the 16-bit frame-size counter, and `MEMORY` bytes of
memory.  `cap` is the const generic `MEMORY`; `registers i` for `i < 12` and
`memory a` for `a < cap` are the meaningful entries. -/
@[ext]
structure Machine where
  cap : Nat
  registers : Nat → Nat
  stack_frame_size : Nat
  memory : Nat → Nat

/-- Helper: store value `v` into register `i` (`self.registers[i] = v`). -/
def Machine.setReg (m : Machine) (i v : Nat) : Machine :=
  { m with registers := fun j => if j = i then v else m.registers j }

/-- `Machine::new`: registers zeroed, SP and FP set to `MEMORY - 1 - 1`
(truncated to `u16` by the `as VMSize` cast), memory zeroed. -/
def Machine.new (MEMORY : Nat) : Machine :=
  { cap := MEMORY
    registers := fun j => if j = SP then (MEMORY - 1 - 1) % W
                          else if j = FP then (MEMORY - 1 - 1) % W
                          else 0
    stack_frame_size := 0
    memory := fun _ => 0 }

/-- `Machine::get`: read the byte at `addr`; a Rust index panic on an
out-of-range address is `none`. -/
def Machine.get (m : Machine) (addr : Nat) : Option Nat :=
  if addr < m.cap then some (m.memory addr) else none

/-- `Machine::get16`: big-endian 16-bit read, high byte at `addr`, low byte at
`addr + 1` (`Ptr` addition wraps at 16 bits). -/
def Machine.get16 (m : Machine) (addr : Nat) : Option Nat := do
  let high ← m.get addr
  let low ← m.get ((addr + 1) % W)
  some ((high <<< 8) ||| low)

/-- `Machine::set8`: write byte `data` at `addr` (the argument has type `u8`,
hence the `% 256`). -/
def Machine.set8 (m : Machine) (addr data : Nat) : Option Machine :=
  if addr < m.cap then
    some { m with memory := fun x => if x = addr then data % 256 else m.memory x }
  else none

/-- `Machine::set16`: big-endian 16-bit write: `set8(addr, (data >> 8) as u8)`
then `set8(addr + 1, data as u8)`. -/
def Machine.set16 (m : Machine) (addr data : Nat) : Option Machine := do
  let m1 ← m.set8 addr ((data >>> 8) % 256)
  m1.set8 ((addr + 1) % W) (data % 256)

/-- `Machine::fetch`: read the byte at IP, then increment IP by 1. -/
def Machine.fetch (m : Machine) : Option (Nat × Machine) := do
  let instruction ← m.get (m.registers IP)
  some (instruction, m.setReg IP ((m.registers IP + 1) % W))

/-- `Machine::fetch16`: read a big-endian word at IP, then increment IP by 2. -/
def Machine.fetch16 (m : Machine) : Option (Nat × Machine) := do
  let result ← m.get16 (m.registers IP)
  some (result, m.setReg IP ((m.registers IP + 2) % W))

/-- `Machine::fetch_register_id`: fetch one byte and decode it as a register
(the `TryFromPrimitive` instance of `Registers`: discriminants `0x00..=0x0B`),
failing with `InvalidRegister` carrying the byte otherwise.  The IP increment
performed by `fetch` survives either way. -/
def Machine.fetch_register_id (m : Machine) : Option (Except MachineError Nat × Machine) := do
  let (b, m1) ← m.fetch
  if b ≤ 0x0B then some (.ok b, m1) else some (.error (.InvalidRegister b), m1)

/-- `Machine::push`: `set16` the value at SP, decrement SP by 2, increment the
frame-size counter by 2 (both `u16`-wrapping). -/
def Machine.push (m : Machine) (value : Nat) : Option Machine := do
  let sp_addr := m.registers SP
  let m1 ← m.set16 sp_addr value
  let m2 := m1.setReg SP ((m1.registers SP + (W - 2)) % W)
  some { m2 with stack_frame_size := (m2.stack_frame_size + 2) % W }

/-- `Machine::pop`: increment SP by 2, decrement the frame-size counter by 2,
read and return the word now at SP. -/
def Machine.pop (m : Machine) : Option (Nat × Machine) := do
  let m1 := m.setReg SP ((m.registers SP + 2) % W)
  let stack_addr := m1.registers SP
  let m2 := { m1 with stack_frame_size := (m1.stack_frame_size + (W - 2)) % W }
  let v ← m2.get16 stack_addr
  some (v, m2)

/-- The discard loop at the end of `Machine::pop_state`:
`for _arg in 0..n_args { self.pop(); }`. -/
def Machine.popDiscard (m : Machine) : Nat → Option Machine
  | 0 => some m
  | n + 1 => do
      let (_, m1) ← m.pop
      m1.popDiscard n

/-- `Machine::push_state`: push R1..R8 in ascending order (the
`for reg in R1..=R8` loop, unrolled), push IP, push `stack_frame_size + 2`,
set FP to the new SP, reset the frame-size counter. -/
def Machine.push_state (m : Machine) : Option Machine := do
  let m1 ← m.push (m.registers 4)
  let m2 ← m1.push (m1.registers 5)
  let m3 ← m2.push (m2.registers 6)
  let m4 ← m3.push (m3.registers 7)
  let m5 ← m4.push (m4.registers 8)
  let m6 ← m5.push (m5.registers 9)
  let m7 ← m6.push (m6.registers 10)
  let m8 ← m7.push (m7.registers 11)
  let m9 ← m8.push (m8.registers IP)
  let m10 ← m9.push ((m9.stack_frame_size + 2) % W)
  let m11 := m10.setReg FP (m10.registers SP)
  some { m11 with stack_frame_size := 0 }

/-- `Machine::pop_state`: set SP to FP, pop the frame-size counter, pop IP,
pop R8..R1 in descending order (the `.rev()` loop, unrolled), pop an argument
count and discard that many words, then set FP to the saved FP address plus
the (by now decremented) frame-size counter. -/
def Machine.pop_state (m : Machine) : Option Machine := do
  let frame_pointer_addr := m.registers FP
  let ma := m.setReg SP frame_pointer_addr
  let (fs, mb) ← ma.pop
  let mc := { mb with stack_frame_size := fs }
  let (ip, md) ← mc.pop
  let me := md.setReg IP ip
  let (v8, mf) ← me.pop
  let mg := mf.setReg 11 v8
  let (v7, mh) ← mg.pop
  let mi := mh.setReg 10 v7
  let (v6, mj) ← mi.pop
  let mk := mj.setReg 9 v6
  let (v5, ml) ← mk.pop
  let mm := ml.setReg 8 v5
  let (v4, mn) ← mm.pop
  let mo := mn.setReg 7 v4
  let (v3, mp) ← mo.pop
  let mq := mp.setReg 6 v3
  let (v2, mr) ← mq.pop
  let ms := mr.setReg 5 v2
  let (v1, mt) ← ms.pop
  let mu := mt.setReg 4 v1
  let (n_args, mv) ← mu.pop
  let mw ← mv.popDiscard n_args
  some (mw.setReg FP ((frame_pointer_addr + mw.stack_frame_size) % W))

/-- Combinator for the `?` operator applied to `fetch_register_id` inside
`execute`: on `Err` the instruction handler stops and the error is returned,
with all state mutations so far kept. -/
def regBind (x : Option (Except MachineError Nat × Machine))
    (k : Nat → Machine → Option (Machine × Option MachineError)) :
    Option (Machine × Option MachineError) := do
  let (r, m) ← x
  match r with
  | .error e => some (m, some e)
  | .ok v => k v m

/-- `Machine::execute`: dispatch on the decoded instruction.  The result pairs
the post-state with `none` for `Ok(())` or `some e` for `Err(e)`; an outer
`none` is a panic.  The `Hlt` variant reaches the `_ => todo!()` catch-all in
the source and therefore panics. -/
def Machine.execute (m : Machine) (instruction : Instructions) :
    Option (Machine × Option MachineError) :=
  match instruction with
  | .MoveLitToReg => do
      let (lit_value, m1) ← m.fetch16
      regBind m1.fetch_register_id fun reg_dest m2 =>
        some (m2.setReg reg_dest lit_value, none)
  | .MoveRegToReg =>
      regBind m.fetch_register_id fun reg_src m1 =>
        regBind m1.fetch_register_id fun reg_dest m2 =>
          some (m2.setReg reg_dest (m2.registers reg_src), none)
  | .MoveRegToMem =>
      regBind m.fetch_register_id fun reg_src m1 => do
        let (addr_dest, m2) ← m1.fetch16
        let m3 ← m2.set16 addr_dest (m2.registers reg_src)
        some (m3, none)
  | .MoveMemToReg => do
      let (addr_src, m1) ← m.fetch16
      regBind m1.fetch_register_id fun reg_dest m2 => do
        let value ← m2.get16 addr_src
        some (m2.setReg reg_dest value, none)
  | .AddRegReg =>
      regBind m.fetch_register_id fun reg_1 m1 =>
        regBind m1.fetch_register_id fun reg_2 m2 =>
          some (m2.setReg ACC ((m2.registers reg_1 + m2.registers reg_2) % W), none)
  | .JmpNotEq => do
      let (value, m1) ← m.fetch16
      let (addr, m2) ← m1.fetch16
      if value ≠ m2.registers ACC then some (m2.setReg IP addr, none)
      else some (m2, none)
  | .PushLit => do
      let (value, m1) ← m.fetch16
      let m2 ← m1.push value
      some (m2, none)
  | .PushReg =>
      regBind m.fetch_register_id fun reg m1 => do
        let m2 ← m1.push (m1.registers reg)
        some (m2, none)
  | .Pop =>
      regBind m.fetch_register_id fun reg m1 => do
        let (v, m2) ← m1.pop
        some (m2.setReg reg v, none)
  | .CallLit => do
      let (subroutine_addr, m1) ← m.fetch16
      let m2 ← m1.push_state
      some (m2.setReg IP subroutine_addr, none)
  | .CallReg =>
      regBind m.fetch_register_id fun reg m1 => do
        let subroutine_addr := m1.registers reg
        let m2 ← m1.push_state
        some (m2.setReg IP subroutine_addr, none)
  | .Ret => do
      let m1 ← m.pop_state
      some (m1, none)
  | .Hlt => none

/-- `Machine::step`: fetch one opcode byte, decode it, execute the result.  The
decode failure keeps the IP increment done by `fetch`. -/
def Machine.step (m : Machine) : Option (Machine × Option MachineError) := do
  let (instruction, m1) ← m.fetch
  match decode instruction with
  | .error e => some (m1, some e)
  | .ok i => m1.execute i

/-- The effect of `set16 a v` on the memory function: low byte at `a + 1`,
high byte at `a` (big-endian), everything else untouched.  Valid when the
address pair does not wrap around the 16-bit address space. -/
def writeW (mem : Nat → Nat) (a v : Nat) : Nat → Nat :=
  fun x => if x = a + 1 then v % 256 else if x = a then (v >>> 8) % 256 else mem x

/-- The value `get16` recombines from two memory bytes (no address wrap). -/
def readW (mem : Nat → Nat) (a : Nat) : Nat :=
  (mem a <<< 8) ||| mem (a + 1)

/-- Iterating the source `push`: pushing a list of values left to right.
This is the harness's way to state 'perform n pushes of a sequence'. -/
def Machine.pushValues (m : Machine) : List Nat → Option Machine
  | [] => some m
  | v :: vs => do
      let m1 ← m.push v
      m1.pushValues vs

/-- Iterating the source `pop`: popping `n` words, collecting them in pop
order.  This is the harness's way to state 'perform n pops'. -/
def Machine.popN (m : Machine) : Nat → Option (List Nat × Machine)
  | 0 => some ([], m)
  | n + 1 => do
      let (v, m1) ← m.pop
      let (vs, m2) ← m1.popN n
      some (v :: vs, m2)

/-- The list of words `push_state` writes, in push order: R1..R8, the
current IP, and the frame-size word `stack_frame_size + 20` (the counter
has been incremented by 18 by the nine preceding pushes, and the code adds 2). -/
def savedWords (m : Machine) : List Nat :=
  [m.registers 4, m.registers 5, m.registers 6, m.registers 7,
   m.registers 8, m.registers 9, m.registers 10, m.registers 11,
   m.registers IP, m.stack_frame_size + 20]

/-- `pop_state` stage 1: the machine after `SP := FP` and the first pop (the
saved frame-size word at `FP + 2`), written as an explicit literal. -/
def popStage1 (m : Machine) : Machine :=
  { cap := m.cap
    registers := fun j => if j = SP then m.registers FP + 2 else m.registers j
    stack_frame_size := (m.stack_frame_size + (W - 2)) % W
    memory := m.memory }

/-- `pop_state` stage 2: the machine after the second pop (the saved IP word at `FP + 4`); the frame-size counter, set to the saved word by the
code, has been decremented once by this pop. -/
def popStage2 (m : Machine) : Machine :=
  { cap := m.cap
    registers := fun j => if j = SP then m.registers FP + 4
                          else m.registers j
    stack_frame_size := readW m.memory (m.registers FP + 2) - 2
    memory := m.memory }

/-- `pop_state` stage 3: the machine after pop number 3 of the restore
sequence (saved registers popped so far already written back). -/
def popStage3 (m : Machine) : Machine :=
  { cap := m.cap
    registers := fun j => if j = SP then m.registers FP + 6
                          else if j = IP then readW m.memory (m.registers FP + 4)
                          else m.registers j
    stack_frame_size := readW m.memory (m.registers FP + 2) - 4
    memory := m.memory }

/-- `pop_state` stage 4: the machine after pop number 4 of the restore
sequence (saved registers popped so far already written back). -/
def popStage4 (m : Machine) : Machine :=
  { cap := m.cap
    registers := fun j => if j = SP then m.registers FP + 8
                          else if j = IP then readW m.memory (m.registers FP + 4)
                          else if j = 11 then readW m.memory (m.registers FP + 6)
                          else m.registers j
    stack_frame_size := readW m.memory (m.registers FP + 2) - 6
    memory := m.memory }

/-- `pop_state` stage 5: the machine after pop number 5 of the restore
sequence (saved registers popped so far already written back). -/
def popStage5 (m : Machine) : Machine :=
  { cap := m.cap
    registers := fun j => if j = SP then m.registers FP + 10
                          else if j = IP then readW m.memory (m.registers FP + 4)
                          else if j = 11 then readW m.memory (m.registers FP + 6)
                          else if j = 10 then readW m.memory (m.registers FP + 8)
                          else m.registers j
    stack_frame_size := readW m.memory (m.registers FP + 2) - 8
    memory := m.memory }

/-- `pop_state` stage 6: the machine after pop number 6 of the restore
sequence (saved registers popped so far already written back). -/
def popStage6 (m : Machine) : Machine :=
  { cap := m.cap
    registers := fun j => if j = SP then m.registers FP + 12
                          else if j = IP then readW m.memory (m.registers FP + 4)
                          else if j = 11 then readW m.memory (m.registers FP + 6)
                          else if j = 10 then readW m.memory (m.registers FP + 8)
                          else if j = 9 then readW m.memory (m.registers FP + 10)
                          else m.registers j
    stack_frame_size := readW m.memory (m.registers FP + 2) - 10
    memory := m.memory }

/-- `pop_state` stage 7: the machine after pop number 7 of the restore
sequence (saved registers popped so far already written back). -/
def popStage7 (m : Machine) : Machine :=
  { cap := m.cap
    registers := fun j => if j = SP then m.registers FP + 14
                          else if j = IP then readW m.memory (m.registers FP + 4)
                          else if j = 11 then readW m.memory (m.registers FP + 6)
                          else if j = 10 then readW m.memory (m.registers FP + 8)
                          else if j = 9 then readW m.memory (m.registers FP + 10)
                          else if j = 8 then readW m.memory (m.registers FP + 12)
                          else m.registers j
    stack_frame_size := readW m.memory (m.registers FP + 2) - 12
    memory := m.memory }

/-- `pop_state` stage 8: the machine after pop number 8 of the restore
sequence (saved registers popped so far already written back). -/
def popStage8 (m : Machine) : Machine :=
  { cap := m.cap
    registers := fun j => if j = SP then m.registers FP + 16
                          else if j = IP then readW m.memory (m.registers FP + 4)
                          else if j = 11 then readW m.memory (m.registers FP + 6)
                          else if j = 10 then readW m.memory (m.registers FP + 8)
                          else if j = 9 then readW m.memory (m.registers FP + 10)
                          else if j = 8 then readW m.memory (m.registers FP + 12)
                          else if j = 7 then readW m.memory (m.registers FP + 14)
                          else m.registers j
    stack_frame_size := readW m.memory (m.registers FP + 2) - 14
    memory := m.memory }

/-- `pop_state` stage 9: the machine after pop number 9 of the restore
sequence (saved registers popped so far already written back). -/
def popStage9 (m : Machine) : Machine :=
  { cap := m.cap
    registers := fun j => if j = SP then m.registers FP + 18
                          else if j = IP then readW m.memory (m.registers FP + 4)
                          else if j = 11 then readW m.memory (m.registers FP + 6)
                          else if j = 10 then readW m.memory (m.registers FP + 8)
                          else if j = 9 then readW m.memory (m.registers FP + 10)
                          else if j = 8 then readW m.memory (m.registers FP + 12)
                          else if j = 7 then readW m.memory (m.registers FP + 14)
                          else if j = 6 then readW m.memory (m.registers FP + 16)
                          else m.registers j
    stack_frame_size := readW m.memory (m.registers FP + 2) - 16
    memory := m.memory }

/-- `pop_state` stage 10: the machine after pop number 10 of the restore
sequence (saved registers popped so far already written back). -/
def popStage10 (m : Machine) : Machine :=
  { cap := m.cap
    registers := fun j => if j = SP then m.registers FP + 20
                          else if j = IP then readW m.memory (m.registers FP + 4)
                          else if j = 11 then readW m.memory (m.registers FP + 6)
                          else if j = 10 then readW m.memory (m.registers FP + 8)
                          else if j = 9 then readW m.memory (m.registers FP + 10)
                          else if j = 8 then readW m.memory (m.registers FP + 12)
                          else if j = 7 then readW m.memory (m.registers FP + 14)
                          else if j = 6 then readW m.memory (m.registers FP + 16)
                          else if j = 5 then readW m.memory (m.registers FP + 18)
                          else m.registers j
    stack_frame_size := readW m.memory (m.registers FP + 2) - 18
    memory := m.memory }

/-- `pop_state` stage 11: the machine after the final register pop; the word
just popped (at `FP + 22`) is the argument count fed to the discard loop. -/
def popStage11 (m : Machine) : Machine :=
  { cap := m.cap
    registers := fun j => if j = SP then m.registers FP + 22
                          else if j = IP then readW m.memory (m.registers FP + 4)
                          else if j = 11 then readW m.memory (m.registers FP + 6)
                          else if j = 10 then readW m.memory (m.registers FP + 8)
                          else if j = 9 then readW m.memory (m.registers FP + 10)
                          else if j = 8 then readW m.memory (m.registers FP + 12)
                          else if j = 7 then readW m.memory (m.registers FP + 14)
                          else if j = 6 then readW m.memory (m.registers FP + 16)
                          else if j = 5 then readW m.memory (m.registers FP + 18)
                          else if j = 4 then readW m.memory (m.registers FP + 20)
                          else m.registers j
    stack_frame_size := readW m.memory (m.registers FP + 2) - 20
    memory := m.memory }

/-- `pop_state` after the argument-discard loop has popped `n` further words. -/
def popStageD (m : Machine) (n : Nat) : Machine :=
  { cap := m.cap
    registers := fun j => if j = SP then m.registers FP + 22 + 2 * n
                          else (popStage11 m).registers j
    stack_frame_size := readW m.memory (m.registers FP + 2) - 20 - 2 * n
    memory := m.memory }

/-- The machine `pop_state` returns, given that the saved frame-size word is
in range and the argument-count word equals `n`: the discard-stage machine
with FP set to the old FP plus the fully decremented frame-size counter. -/
def popResult (m : Machine) (n : Nat) : Machine :=
  (popStageD m n).setReg FP ((m.registers FP + (popStageD m n).stack_frame_size) % W)

end ToyVM

namespace ToyVM

/-! ### Concrete machines used by witnesses and counterexamples -/

/-- A small machine whose memory is filled with the (undefined) opcode byte
`0xFF`-free value `0x16`: used to witness decode-failure behaviour. -/
def skippedOpcodeMachine : Machine :=
  { Machine.new 16 with memory := fun _ => 0x16 }

/-- A small machine for the invalid-register scenario: `MoveLitToReg` opcode
at address 0, two literal bytes, then the invalid register-id byte `0x20`. -/
def badRegisterMachine : Machine :=
  { Machine.new 16 with memory := fun a =>
      if a = 0 then 0x10 else if a = 1 then 0xAB else if a = 2 then 0xCD
      else if a = 3 then 0x20 else 0 }

/-- Decidable equality for decode results, used by the decode-closure check. -/
instance : DecidableEq (Except MachineError Instructions) := fun x y =>
  match x, y with
  | .error a, .error b => decidable_of_iff (a = b) (by simp)
  | .ok a, .ok b => decidable_of_iff (a = b) (by simp)
  | .error _, .ok _ => isFalse (by simp)
  | .ok _, .error _ => isFalse (by simp)

/-- A small machine whose memory is filled with the `Hlt` opcode byte. -/
def hltMachine : Machine :=
  { Machine.new 16 with memory := fun _ => 0xFF }

/-- C2 scenario, stage 1: a fresh capacity-100 machine (SP = FP = 98) after
pushing the argument-count word 0, just before the call. -/
def c2m1 : Machine := ((Machine.new 100).push 0).getD (Machine.new 100)

/-- C2 scenario, stage 2: the machine after executing `CallLit` (the target
word read at IP = 0 is 0). -/
def c2m2 : Machine := ((c2m1.execute .CallLit).getD (c2m1, none)).1

/-- C2 scenario, stage 3: the machine after the matching `Ret`. -/
def c2m3 : Machine := ((c2m2.execute .Ret).getD (c2m2, none)).1

/-- C4 counterexample scenario, stage 1: a fresh 100-byte machine after
pushing one literal word 7 and the argument-count word 1. -/
def c4m1 : Machine := ((Machine.new 100).pushValues [7, 1]).getD (Machine.new 100)

/-- C4 counterexample scenario, stage 2: after executing `CallLit`. -/
def c4m2 : Machine := ((c4m1.execute .CallLit).getD (c4m1, none)).1

/-- C4 counterexample scenario, stage 3: after the matching `Ret`. -/
def c4m3 : Machine := ((c4m2.execute .Ret).getD (c4m2, none)).1

/-! ### Arithmetic helpers -/

/-- Bitwise or of a left-shifted value with a small value is addition. -/
theorem lor_shiftLeft_eq_add (n : Nat) :
    ∀ h l : Nat, l < 2 ^ n → (h <<< n) ||| l = h * 2 ^ n + l := by
  induction n with
  | zero =>
    intro h l hl
    interval_cases l
    simp
  | succ n ih =>
    intro h l hl
    have hbit : Nat.bit (l % 2 = 1) (l / 2) = l := by
      rcases Nat.mod_two_eq_zero_or_one l with h2 | h2 <;>
        simp [Nat.bit_val, h2] <;> omega
    have hshift : h <<< (n + 1) = Nat.bit false (h <<< n) := by
      simp [Nat.shiftLeft_eq, Nat.bit_val, Nat.pow_succ]
      ring
    rw [hshift, ← hbit, Nat.lor_bit]
    have hl2 : l / 2 < 2 ^ n := by
      have := Nat.pow_succ 2 n
      omega
    rw [ih h (l / 2) hl2]
    simp only [Nat.bit_val, Nat.shiftLeft_eq, Nat.pow_succ]
    rcases Nat.mod_two_eq_zero_or_one l with h2 | h2 <;> simp [h2] <;> ring_nf

/-- Specialization to bytes: the big-endian recombination done by `get16`. -/
theorem lor_byte (h l : Nat) (hl : l < 256) : (h <<< 8) ||| l = 256 * h + l := by
  have h8 : (256 : Nat) = 2 ^ 8 := by norm_num
  have := lor_shiftLeft_eq_add 8 h l (by omega)
  omega

end ToyVM

namespace ToyVM

/-! ### Word-level view of memory -/

/-- Reading a word just written returns the value reduced to 16 bits. -/
theorem readW_writeW (mem : Nat → Nat) (a v : Nat) :
    readW (writeW mem a v) a = v % W := by
  unfold readW writeW
  rw [if_neg (by omega : ¬ a = a + 1), if_pos rfl, if_pos rfl]
  rw [lor_byte _ _ (Nat.mod_lt _ (by norm_num))]
  have h8 : v >>> 8 = v / 256 := Nat.shiftRight_eq_div_pow v 8
  rw [h8]
  show 256 * (v / 256 % 256) + v % 256 = v % 65536
  omega

/-- Bytes away from the written pair are untouched. -/
theorem writeW_untouched (mem : Nat → Nat) (a v x : Nat) (h1 : x ≠ a) (h2 : x ≠ a + 1) :
    writeW mem a v x = mem x := by
  unfold writeW
  rw [if_neg h2, if_neg h1]

/-- Reading a word away from the written pair sees the old memory. -/
theorem readW_writeW_ne (mem : Nat → Nat) (a v b : Nat)
    (h1 : b ≠ a) (h2 : b ≠ a + 1) (h3 : b + 1 ≠ a) (h4 : b + 1 ≠ a + 1) :
    readW (writeW mem a v) b = readW mem b := by
  unfold readW
  rw [writeW_untouched mem a v b h1 h2, writeW_untouched mem a v (b + 1) h3 h4]

/-- `readW` only looks at the two bytes of its word. -/
theorem readW_congr (mem1 mem2 : Nat → Nat) (a : Nat)
    (h1 : mem1 a = mem2 a) (h2 : mem1 (a + 1) = mem2 (a + 1)) :
    readW mem1 a = readW mem2 a := by
  unfold readW
  rw [h1, h2]

/-! ### Equation lemmas for the memory accessors -/

/-- Reduction of an `Option` bind whose first component is `some`. -/
theorem someBind {α β : Type} (x : α) (f : α → Option β) : (some x >>= f) = f x := rfl

/-- Reduction of an `Option` bind whose first component is `none`. -/
theorem noneBind {α β : Type} (f : α → Option β) : ((none : Option α) >>= f) = none := rfl

/-- `get` on an in-range address. -/
theorem get_eq (m : Machine) (a : Nat) (h : a < m.cap) :
    m.get a = some (m.memory a) := by
  simp [Machine.get, h]

/-- `get` on an out-of-range address panics. -/
theorem get_oob (m : Machine) (a : Nat) (h : ¬ a < m.cap) :
    m.get a = none := by
  simp [Machine.get, h]

/-- `get16` on an in-range, non-wrapping address pair. -/
theorem get16_eq (m : Machine) (a : Nat) (h1 : a + 1 < m.cap) (hcap : m.cap ≤ W) :
    m.get16 a = some (readW m.memory a) := by
  have ha0 : a < m.cap := by omega
  have haw : (a + 1) % W = a + 1 := Nat.mod_eq_of_lt (by omega)
  rw [Machine.get16, haw]
  rw [get_eq m a ha0]
  rw [get_eq m (a + 1) h1]
  rfl

/-- `set8` on an in-range address. -/
theorem set8_eq (m : Machine) (a d : Nat) (h : a < m.cap) :
    m.set8 a d = some { m with memory := fun x => if x = a then d % 256 else m.memory x } := by
  simp [Machine.set8, h]

/-- `set16` on an in-range, non-wrapping address pair, summarized by `writeW`. -/
theorem set16_eq (m : Machine) (a d : Nat) (h1 : a + 1 < m.cap) (hcap : m.cap ≤ W) :
    m.set16 a d = some { m with memory := writeW m.memory a d } := by
  have ha0 : a < m.cap := by omega
  have haw : (a + 1) % W = a + 1 := Nat.mod_eq_of_lt (by omega)
  simp only [Machine.set16, Machine.set8, haw, ha0, h1, if_true, someBind]
  congr 1
  ext x
  all_goals try rfl
  show (if x = a + 1 then d % 256 % 256
    else if x = a then (d >>> 8) % 256 % 256 else m.memory x) = writeW m.memory a d x
  unfold writeW
  rcases eq_or_ne x (a + 1) with h | h
  · rw [if_pos h, if_pos h]
    omega
  · rw [if_neg h, if_neg h]
    rcases eq_or_ne x a with h' | h'
    · rw [if_pos h', if_pos h']
      omega
    · rw [if_neg h', if_neg h']

end ToyVM

namespace ToyVM

/-! ### Projection lemmas for `setReg` and `regBind` -/

/-- Reading back the register just set. -/
theorem setReg_registers_same (m : Machine) (i v : Nat) : (m.setReg i v).registers i = v := by
  simp [Machine.setReg]

/-- Reading a different register after `setReg`. -/
theorem setReg_registers_ne (m : Machine) (i v j : Nat) (h : j ≠ i) :
    (m.setReg i v).registers j = m.registers j := by
  simp [Machine.setReg, h]

/-- `setReg` leaves the capacity unchanged. -/
theorem setReg_cap (m : Machine) (i v : Nat) : (m.setReg i v).cap = m.cap := rfl

/-- `setReg` leaves memory unchanged. -/
theorem setReg_memory (m : Machine) (i v : Nat) : (m.setReg i v).memory = m.memory := rfl

/-- `setReg` leaves the frame-size counter unchanged. -/
theorem setReg_frame (m : Machine) (i v : Nat) :
    (m.setReg i v).stack_frame_size = m.stack_frame_size := rfl

/-- `regBind` on a successful register fetch. -/
theorem regBind_ok (r : Nat) (m : Machine)
    (k : Nat → Machine → Option (Machine × Option MachineError)) :
    regBind (some (.ok r, m)) k = k r m := rfl

/-- `regBind` on a failed register fetch. -/
theorem regBind_err (e : MachineError) (m : Machine)
    (k : Nat → Machine → Option (Machine × Option MachineError)) :
    regBind (some (.error e, m)) k = some (m, some e) := rfl

/-! ### Equation lemmas for fetching -/

/-- `fetch` on an in-range IP that does not wrap. -/
theorem fetch_eq (m : Machine) (h : m.registers IP < m.cap) (hW : m.registers IP + 1 < W) :
    m.fetch = some (m.memory (m.registers IP), m.setReg IP (m.registers IP + 1)) := by
  rw [Machine.fetch, get_eq m _ h]
  simp only [someBind]
  rw [Nat.mod_eq_of_lt hW]

/-- `fetch16` on an in-range IP that does not wrap. -/
theorem fetch16_eq (m : Machine) (h1 : m.registers IP + 1 < m.cap) (hcap : m.cap ≤ W)
    (hW : m.registers IP + 2 < W) :
    m.fetch16 = some (readW m.memory (m.registers IP), m.setReg IP (m.registers IP + 2)) := by
  rw [Machine.fetch16, get16_eq m _ h1 hcap]
  simp only [someBind]
  rw [Nat.mod_eq_of_lt hW]

/-- `fetch_register_id` when the fetched byte is a valid register id. -/
theorem fetch_register_id_ok (m : Machine) (h : m.registers IP < m.cap)
    (hW : m.registers IP + 1 < W) (hb : m.memory (m.registers IP) ≤ 11) :
    m.fetch_register_id =
      some (.ok (m.memory (m.registers IP)), m.setReg IP (m.registers IP + 1)) := by
  rw [Machine.fetch_register_id, fetch_eq m h hW]
  simp only [someBind]
  rw [if_pos hb]

/-- `fetch_register_id` when the fetched byte is not a register id: the error
carries the byte and the IP increment is kept. -/
theorem fetch_register_id_err (m : Machine) (h : m.registers IP < m.cap)
    (hW : m.registers IP + 1 < W) (hb : ¬ m.memory (m.registers IP) ≤ 11) :
    m.fetch_register_id =
      some (.error (.InvalidRegister (m.memory (m.registers IP))),
            m.setReg IP (m.registers IP + 1)) := by
  rw [Machine.fetch_register_id, fetch_eq m h hW]
  simp only [someBind]
  rw [if_neg hb]

/-- `step` when the fetched opcode byte decodes. -/
theorem step_eq_ok (m : Machine) (i : Instructions) (hip : m.registers IP < m.cap)
    (hW : m.registers IP + 1 < W)
    (hdec : decode (m.memory (m.registers IP)) = .ok i) :
    m.step = (m.setReg IP (m.registers IP + 1)).execute i := by
  rw [Machine.step, fetch_eq m hip hW]
  simp only [someBind]
  rw [hdec]

/-- `step` when the fetched opcode byte fails to decode: the error carries the
byte and the IP increment is kept. -/
theorem step_eq_err (m : Machine) (e : MachineError) (hip : m.registers IP < m.cap)
    (hW : m.registers IP + 1 < W)
    (hdec : decode (m.memory (m.registers IP)) = .error e) :
    m.step = some (m.setReg IP (m.registers IP + 1), some e) := by
  rw [Machine.step, fetch_eq m hip hW]
  simp only [someBind]
  rw [hdec]

end ToyVM

namespace ToyVM

/-- Claim C6: for every address `a` with `a + 1` within the configured memory
capacity and every 16-bit value `v`, writing `v` with `set16` at `a` and then
reading with `get16` at `a` returns `v`; moreover the stored form is
big-endian, so `get16 a` always equals `(memory a <<< 8) ||| memory (a + 1)`
(stated both after the write and for the arbitrary starting machine). -/
theorem set16_get16_roundtrip (m : Machine) (a v : Nat)
    (hcap : m.cap ≤ W) (ha : a + 1 < m.cap) (hv : v < W) :
    (∃ m2, m.set16 a v = some m2 ∧ m2.get16 a = some v ∧
      m2.get16 a = some ((m2.memory a <<< 8) ||| m2.memory (a + 1))) ∧
    m.get16 a = some ((m.memory a <<< 8) ||| m.memory (a + 1)) := by
  refine ⟨⟨{ m with memory := writeW m.memory a v }, set16_eq m a v ha hcap, ?_, ?_⟩, ?_⟩
  · rw [get16_eq { m with memory := writeW m.memory a v } a ha hcap]
    rw [show readW (writeW m.memory a v) a = v % W from readW_writeW m.memory a v]
    rw [Nat.mod_eq_of_lt hv]
  · rw [get16_eq { m with memory := writeW m.memory a v } a ha hcap]
    rfl
  · rw [get16_eq m a ha hcap]
    rfl

/-- Witness for C6 at a concrete machine, address and value. -/
theorem set16_get16_roundtrip_witness :
    (∃ m2, (Machine.new 16).set16 3 43981 = some m2 ∧ m2.get16 3 = some 43981 ∧
      m2.get16 3 = some ((m2.memory 3 <<< 8) ||| m2.memory (3 + 1))) ∧
    (Machine.new 16).get16 3 =
      some (((Machine.new 16).memory 3 <<< 8) ||| (Machine.new 16).memory (3 + 1)) :=
  set16_get16_roundtrip (Machine.new 16) 3 43981 (by decide) (by decide) (by decide)

set_option maxRecDepth 4096 in
/-- Claim C7: opcode decode is a closed total classification.  Each of the
thirteen defined opcode bytes decodes to its matching variant; every other
byte value makes `decode` fail with `InvalidInstruction` carrying exactly that
byte, and `step` on such a byte fails the same way (keeping the IP increment
of the opcode fetch). -/
theorem decode_closure :
    (decode 0x10 = .ok .MoveLitToReg ∧ decode 0x11 = .ok .MoveRegToReg ∧
     decode 0x12 = .ok .MoveRegToMem ∧ decode 0x13 = .ok .MoveMemToReg ∧
     decode 0x14 = .ok .AddRegReg ∧ decode 0x15 = .ok .JmpNotEq ∧
     decode 0x17 = .ok .PushLit ∧ decode 0x18 = .ok .PushReg ∧
     decode 0x19 = .ok .Pop ∧ decode 0x5E = .ok .CallLit ∧
     decode 0x5F = .ok .CallReg ∧ decode 0x60 = .ok .Ret ∧
     decode 0xFF = .ok .Hlt) ∧
    (∀ b : Nat, b < 256 →
      b ∉ ([0x10, 0x11, 0x12, 0x13, 0x14, 0x15, 0x17, 0x18, 0x19,
            0x5E, 0x5F, 0x60, 0xFF] : List Nat) →
      decode b = .error (.InvalidInstruction b)) ∧
    (∀ (m : Machine), m.registers IP < m.cap → m.registers IP + 1 < W →
      decode (m.memory (m.registers IP)) =
        .error (.InvalidInstruction (m.memory (m.registers IP))) →
      m.step = some (m.setReg IP (m.registers IP + 1),
                     some (.InvalidInstruction (m.memory (m.registers IP))))) := by
  have hrest : ∀ b : Nat, b < 256 →
      b ∉ ([0x10, 0x11, 0x12, 0x13, 0x14, 0x15, 0x17, 0x18, 0x19,
            0x5E, 0x5F, 0x60, 0xFF] : List Nat) →
      decode b = .error (.InvalidInstruction b) := by
    decide
  refine ⟨⟨rfl, rfl, rfl, rfl, rfl, rfl, rfl, rfl, rfl, rfl, rfl, rfl, rfl⟩, hrest, ?_⟩
  intro m hip hW hdec
  exact step_eq_err m _ hip hW hdec

/-- Witness for C7: stepping a machine sitting on the skipped opcode byte
`0x16` fails with `InvalidInstruction 0x16`. -/
theorem decode_closure_witness :
    skippedOpcodeMachine.step =
      some (skippedOpcodeMachine.setReg IP (skippedOpcodeMachine.registers IP + 1),
            some (.InvalidInstruction
              (skippedOpcodeMachine.memory (skippedOpcodeMachine.registers IP)))) :=
  decode_closure.2.2 skippedOpcodeMachine (by decide) (by decide) (by decide)

/-- Claim C8: every memory access (`get`, `get16`, `set8`, `set16`, and the
IP-driven `fetch`/`fetch16`) whose touched bytes are outside the configured
capacity fails (returns `none`, the model of the Rust panic) instead of
clamping or wrapping to an in-range address, and succeeds exactly when all
touched bytes are in range.  Stated for capacities up to 65535 (the default
is 65535, and any capacity above 65535 makes every `u16` address in range). -/
theorem memory_access_bounds (m : Machine) (d : Nat) (hcap : m.cap < W) :
    (∀ a, m.cap ≤ a → m.get a = none) ∧
    (∀ a, m.cap ≤ a → m.set8 a d = none) ∧
    (∀ a, a < W → ((m.get a).isSome ↔ a < m.cap)) ∧
    (∀ a, a < W → ((m.set8 a d).isSome ↔ a < m.cap)) ∧
    (∀ a, a < W → ((m.get16 a).isSome ↔ a + 1 < m.cap)) ∧
    (∀ a, a < W → ((m.set16 a d).isSome ↔ a + 1 < m.cap)) ∧
    (m.registers IP < W → ((m.fetch).isSome ↔ m.registers IP < m.cap)) ∧
    (m.registers IP < W → ((m.fetch16).isSome ↔ m.registers IP + 1 < m.cap)) := by
  have hget : ∀ a : Nat, a < W → ((m.get a).isSome ↔ a < m.cap) := by
    intro a _
    by_cases h : a < m.cap
    · rw [get_eq m a h]
      simp [h]
    · rw [get_oob m a h]
      simp [h]
  have hget16 : ∀ a : Nat, a < W → ((m.get16 a).isSome ↔ a + 1 < m.cap) := by
    intro a haW
    by_cases h : a + 1 < m.cap
    · rw [get16_eq m a h (by omega)]
      simp [h]
    · by_cases h0 : a < m.cap
      · have haw : (a + 1) % W = a + 1 := Nat.mod_eq_of_lt (by omega)
        rw [Machine.get16, haw, get_eq m a h0, someBind, get_oob m (a + 1) h]
        simp [h]
      · rw [Machine.get16, get_oob m a h0]
        simp [h]
  refine ⟨?_, ?_, hget, ?_, hget16, ?_, ?_, ?_⟩
  · intro a h
    exact get_oob m a (by omega)
  · intro a h
    rw [Machine.set8, if_neg (by omega)]
  · intro a _
    by_cases h : a < m.cap
    · rw [set8_eq m a d h]
      simp [h]
    · rw [Machine.set8, if_neg h]
      simp [h]
  · intro a haW
    by_cases h : a + 1 < m.cap
    · rw [set16_eq m a d h (by omega)]
      simp [h]
    · by_cases h0 : a < m.cap
      · have haw : (a + 1) % W = a + 1 := Nat.mod_eq_of_lt (by omega)
        rw [Machine.set16, set8_eq m a _ h0, someBind, haw, Machine.set8]
        rw [if_neg (by simpa using h)]
        simp [h]
      · rw [Machine.set16, Machine.set8, if_neg h0, noneBind]
        simp [h]
  · intro hipW
    rw [Machine.fetch]
    by_cases h : m.registers IP < m.cap
    · rw [get_eq m _ h, someBind]
      simp [h]
    · rw [get_oob m _ h, noneBind]
      simp [h]
  · intro hipW
    rw [Machine.fetch16]
    by_cases h : m.registers IP + 1 < m.cap
    · rw [get16_eq m _ h (by omega), someBind]
      simp [h]
    · have := hget16 (m.registers IP) hipW
      rcases hx : m.get16 (m.registers IP) with _ | v
      · rw [noneBind]
        simp [h]
      · rw [hx] at this
        simp at this
        omega

/-- Witness for C8: an in-range read on a concrete machine succeeds, by the
theorem instantiated there. -/
theorem memory_access_bounds_witness :
    ((Machine.new 32).get 5).isSome ↔ 5 < (Machine.new 32).cap :=
  (memory_access_bounds (Machine.new 32) 7 (by decide)).2.2.1 5 (by decide)

/-- Claim C9 (refuted by the code): executing `Hlt` does not succeed — the
opcode decodes fine, but `Machine::execute` has no `Hlt` arm, so execution
falls into the `_ => todo!()` catch-all and panics (modelled as `none`).
Stepping any machine whose IP byte is `0xFF` therefore panics instead of
signalling the driver to stop. -/
theorem hlt_reaches_todo (m : Machine) (hip : m.registers IP < m.cap)
    (hW : m.registers IP + 1 < W)
    (hb : m.memory (m.registers IP) = 0xFF) : m.step = none := by
  rw [step_eq_ok m .Hlt hip hW (by rw [hb]; rfl)]
  rfl

/-- Witness for C9's theorem at a concrete machine whose memory holds `0xFF`
bytes. -/
theorem hlt_reaches_todo_witness : hltMachine.step = none :=
  hlt_reaches_todo hltMachine (by decide) (by decide) (by decide)

/-- Claim C10: when `execute` fails with `InvalidRegister` partway through a
`MoveLitToReg` whose register-id byte is not `0x00`-`0x0B`, nothing is rolled
back: IP ends up past the opcode byte, the two literal operand bytes, and the
invalid register-id byte (four bytes total); registers, memory and the
frame-size counter are otherwise unchanged. -/
theorem invalid_register_no_rollback (m : Machine)
    (hcap : m.cap < W) (hip : m.registers IP + 3 < m.cap)
    (hop : m.memory (m.registers IP) = 0x10)
    (hbad : 12 ≤ m.memory (m.registers IP + 3)) :
    ∃ m1, m.step = some (m1, some (.InvalidRegister (m.memory (m.registers IP + 3)))) ∧
      m1.registers IP = m.registers IP + 4 ∧
      (∀ j, j ≠ IP → m1.registers j = m.registers j) ∧
      (∀ x, m1.memory x = m.memory x) ∧
      m1.stack_frame_size = m.stack_frame_size := by
  have h0 : m.registers IP < m.cap := by omega
  have hWcap : m.cap ≤ W := by omega
  have hW1 : m.registers IP + 1 < W := by omega
  rw [step_eq_ok m .MoveLitToReg h0 hW1 (by rw [hop]; rfl)]
  set mA := m.setReg IP (m.registers IP + 1) with hmA
  have hA_ip : mA.registers IP = m.registers IP + 1 := setReg_registers_same m IP _
  have hA_cap : mA.cap = m.cap := rfl
  have hA_mem : mA.memory = m.memory := rfl
  rw [Machine.execute]
  rw [fetch16_eq mA (by rw [hA_ip, hA_cap]; omega) (by rw [hA_cap]; omega)
      (by rw [hA_ip]; omega)]
  simp only [someBind]
  set mB := mA.setReg IP (mA.registers IP + 2) with hmB
  have hB_ip : mB.registers IP = m.registers IP + 3 := by
    rw [hmB, setReg_registers_same, hA_ip]
  have hB_cap : mB.cap = m.cap := rfl
  have hB_mem : mB.memory = m.memory := rfl
  rw [fetch_register_id_err mB (by rw [hB_ip, hB_cap]; omega) (by rw [hB_ip]; omega)
      (by rw [hB_mem, hB_ip]; omega)]
  rw [regBind_err]
  refine ⟨mB.setReg IP (mB.registers IP + 1), by rw [hB_mem, hB_ip], ?_, ?_, ?_, ?_⟩
  · rw [setReg_registers_same, hB_ip]
  · intro j hj
    rw [setReg_registers_ne _ _ _ _ hj, hmB, setReg_registers_ne _ _ _ _ hj, hmA,
        setReg_registers_ne _ _ _ _ hj]
  · intro x
    rfl
  · rfl

/-- Witness machine for C10: `MoveLitToReg` opcode at IP 0, literal operand
bytes, then the invalid register-id byte `0x20`. -/
theorem invalid_register_no_rollback_witness :
    ∃ m1, badRegisterMachine.step =
      some (m1, some (.InvalidRegister
        (badRegisterMachine.memory (badRegisterMachine.registers IP + 3)))) ∧
      m1.registers IP = badRegisterMachine.registers IP + 4 ∧
      (∀ j, j ≠ IP → m1.registers j = badRegisterMachine.registers j) ∧
      (∀ x, m1.memory x = badRegisterMachine.memory x) ∧
      m1.stack_frame_size = badRegisterMachine.stack_frame_size :=
  invalid_register_no_rollback badRegisterMachine (by decide) (by decide)
    (by decide) (by decide)

end ToyVM

namespace ToyVM

/-! ### Modular arithmetic helpers for SP and the frame-size counter -/

/-- A `u16` decrement by 2 that does not underflow. -/
theorem sub2_mod (x : Nat) (h2 : 2 ≤ x) (hx : x < W) : (x + (W - 2)) % W = x - 2 := by
  have hW2 : (2 : Nat) ≤ W := by decide
  rw [show x + (W - 2) = (x - 2) + W by omega, Nat.add_mod_right]
  exact Nat.mod_eq_of_lt (by omega)

/-! ### Single-step stack lemmas -/

/-- One in-bounds `push`: the word lands at the old SP, SP drops by 2, the
frame-size counter rises by 2, nothing else changes. -/
theorem push_spec (m : Machine) (v : Nat) (hcap : m.cap ≤ W)
    (hsp : m.registers SP + 1 < m.cap) (h2 : 2 ≤ m.registers SP) :
    m.push v = some { cap := m.cap
                      registers := fun j => if j = SP then m.registers SP - 2 else m.registers j
                      stack_frame_size := (m.stack_frame_size + 2) % W
                      memory := writeW m.memory (m.registers SP) v } := by
  rw [Machine.push, set16_eq m _ v hsp hcap]
  simp only [someBind, Machine.setReg]
  refine congrArg some (Machine.ext rfl ?_ rfl rfl)
  funext j
  show (if j = SP then (m.registers SP + (W - 2)) % W else m.registers j) =
    if j = SP then m.registers SP - 2 else m.registers j
  rcases eq_or_ne j SP with h | h
  · rw [if_pos h, if_pos h]
    exact sub2_mod _ h2 (by omega)
  · rw [if_neg h, if_neg h]

/-- One in-bounds `pop`: SP rises by 2, the frame-size counter drops by 2
(`u16`-wrapping), the returned word is the one at the new SP, memory is
untouched. -/
theorem pop_spec (m : Machine) (hcap : m.cap ≤ W) (hsp : m.registers SP + 3 < m.cap) :
    m.pop = some (readW m.memory (m.registers SP + 2),
      { cap := m.cap
        registers := fun j => if j = SP then m.registers SP + 2 else m.registers j
        stack_frame_size := (m.stack_frame_size + (W - 2)) % W
        memory := m.memory }) := by
  have hmod : (m.registers SP + 2) % W = m.registers SP + 2 :=
    Nat.mod_eq_of_lt (by omega)
  simp only [Machine.pop, hmod, Machine.setReg]
  rw [get16_eq]
  · simp [someBind]
  · exact hsp
  · exact hcap

end ToyVM

namespace ToyVM

/-- Existential repackaging of `push_spec` for chaining. -/
theorem push_spec_ex (m : Machine) (v : Nat) (hcap : m.cap ≤ W)
    (hsp : m.registers SP + 1 < m.cap) (h2 : 2 ≤ m.registers SP) :
    ∃ m', m.push v = some m' ∧ m'.cap = m.cap ∧
      m'.registers SP = m.registers SP - 2 ∧
      (∀ j, j ≠ SP → m'.registers j = m.registers j) ∧
      m'.stack_frame_size = (m.stack_frame_size + 2) % W ∧
      (∀ x, m'.memory x = writeW m.memory (m.registers SP) v x) :=
  ⟨_, push_spec m v hcap hsp h2, rfl, by simp, fun j hj => by simp [hj], rfl, fun x => rfl⟩

/-- Existential repackaging of `pop_spec` for chaining, with the frame-size
counter decrement made exact. -/
theorem pop_spec_ex (m : Machine) (hcap : m.cap ≤ W) (hsp : m.registers SP + 3 < m.cap)
    (hf2 : 2 ≤ m.stack_frame_size) (hfW : m.stack_frame_size < W) :
    ∃ m', m.pop = some (readW m.memory (m.registers SP + 2), m') ∧
      m'.cap = m.cap ∧ m'.registers SP = m.registers SP + 2 ∧
      (∀ j, j ≠ SP → m'.registers j = m.registers j) ∧
      m'.stack_frame_size = m.stack_frame_size - 2 ∧
      m'.memory = m.memory :=
  ⟨_, pop_spec m hcap hsp, rfl, by simp, fun j hj => by simp [hj],
    sub2_mod _ hf2 hfW, rfl⟩

/-- Repackaging of `pop_spec` that says nothing about the frame-size counter,
for the pop whose frame effect is immediately overwritten. -/
theorem pop_spec_any (m : Machine) (hcap : m.cap ≤ W) (hsp : m.registers SP + 3 < m.cap) :
    ∃ m', m.pop = some (readW m.memory (m.registers SP + 2), m') ∧
      m'.cap = m.cap ∧ m'.registers SP = m.registers SP + 2 ∧
      (∀ j, j ≠ SP → m'.registers j = m.registers j) ∧
      m'.memory = m.memory :=
  ⟨_, pop_spec m hcap hsp, rfl, by simp, fun j hj => by simp [hj], rfl⟩

/-- Multi-push specification: pushing `vs` left to right drops SP by
`2 * vs.length`, raises the frame-size counter by the same amount, leaves all
other registers and all memory outside the written band untouched, and leaves
the i-th value (reduced to 16 bits) readable at `SP - 2 * i`. -/
theorem pushValues_spec (vs : List Nat) :
    ∀ (m : Machine), m.cap ≤ W → m.registers SP + 1 < m.cap →
    2 * vs.length ≤ m.registers SP →
    m.stack_frame_size + 2 * vs.length < W →
    ∃ m1, m.pushValues vs = some m1 ∧
      m1.cap = m.cap ∧
      m1.registers SP = m.registers SP - 2 * vs.length ∧
      (∀ j, j ≠ SP → m1.registers j = m.registers j) ∧
      m1.stack_frame_size = m.stack_frame_size + 2 * vs.length ∧
      (∀ x, x + 2 * vs.length ≤ m.registers SP + 1 ∨ m.registers SP + 1 < x →
        m1.memory x = m.memory x) ∧
      (∀ i, (hi : i < vs.length) →
        readW m1.memory (m.registers SP - 2 * i) = vs.get ⟨i, hi⟩ % W) := by
  induction vs with
  | nil =>
    intro m hcap hsp hroom hf
    refine ⟨m, rfl, rfl, by simp, fun j _ => rfl, by simp, fun x _ => rfl,
      fun i hi => (Nat.not_lt_zero i (by simpa using hi)).elim⟩
  | cons v vs ih =>
    intro m hcap hsp hroom hf
    simp only [List.length_cons] at hroom hf
    have h2 : 2 ≤ m.registers SP := by omega
    obtain ⟨mp, hpush, hcap', hsp', hregs', hfs', hmem'⟩ :=
      push_spec_ex m v hcap hsp h2
    have hfs2 : mp.stack_frame_size = m.stack_frame_size + 2 := by
      rw [hfs']
      exact Nat.mod_eq_of_lt (by omega)
    obtain ⟨m1, hrun, hcap1, hsp1, hregs1, hfs1, hmem1, hread1⟩ :=
      ih mp (by rw [hcap']; exact hcap) (by rw [hsp', hcap']; omega)
        (by rw [hsp']; omega) (by rw [hfs2]; omega)
    refine ⟨m1, ?_, by rw [hcap1, hcap'], ?_, ?_, ?_, ?_, ?_⟩
    · rw [Machine.pushValues, hpush, someBind, hrun]
    · rw [hsp1, hsp']
      simp only [List.length_cons]
      omega
    · intro j hj
      rw [hregs1 j hj, hregs' j hj]
    · rw [hfs1, hfs2]
      simp only [List.length_cons]
      omega
    · intro x hx
      simp only [List.length_cons] at hx
      have hx1 : x + 2 * vs.length ≤ mp.registers SP + 1 ∨ mp.registers SP + 1 < x := by
        rw [hsp']
        omega
      rw [hmem1 x hx1, hmem' x]
      rcases hx with hx | hx
      · exact writeW_untouched _ _ _ _ (by omega) (by omega)
      · exact writeW_untouched _ _ _ _ (by omega) (by omega)
    · intro i hi
      match i, hi with
      | 0, hi =>
        have hsp0 : mp.registers SP + 1 < m.registers SP := by rw [hsp']; omega
        have hm_at : ∀ y, y = m.registers SP ∨ y = m.registers SP + 1 →
            m1.memory y = mp.memory y := by
          intro y hy
          refine hmem1 y (Or.inr ?_)
          omega
        have hcongr : readW m1.memory (m.registers SP) = readW mp.memory (m.registers SP) :=
          readW_congr _ _ _ (hm_at _ (Or.inl rfl)) (hm_at _ (Or.inr rfl))
        have hcongr2 : readW mp.memory (m.registers SP) =
            readW (writeW m.memory (m.registers SP) v) (m.registers SP) :=
          readW_congr _ _ _ (hmem' _) (hmem' _)
        show readW m1.memory (m.registers SP - 2 * 0) = (v :: vs).get ⟨0, hi⟩ % W
        rw [show m.registers SP - 2 * 0 = m.registers SP by omega, hcongr, hcongr2,
          readW_writeW]
        rfl
      | j + 1, hi =>
        have hj : j < vs.length := by simp only [List.length_cons] at hi; omega
        have haddr : m.registers SP - 2 * (j + 1) = mp.registers SP - 2 * j := by
          rw [hsp']
          omega
        show readW m1.memory (m.registers SP - 2 * (j + 1)) = (v :: vs).get ⟨j + 1, hi⟩ % W
        rw [haddr, hread1 j hj]
        rfl

end ToyVM

namespace ToyVM

/-- Multi-pop specification: popping `n` words raises SP by `2 * n`, lowers
the frame-size counter by `2 * n`, returns the words sitting at
`SP + 2`, `SP + 4`, ..., and changes nothing else. -/
theorem popN_spec (n : Nat) :
    ∀ (m : Machine), m.cap ≤ W → m.registers SP + 2 * n + 1 < m.cap →
    2 * n ≤ m.stack_frame_size → m.stack_frame_size < W →
    ∃ vals m1, m.popN n = some (vals, m1) ∧
      vals.length = n ∧
      (∀ i, (hi : i < vals.length) →
        vals.get ⟨i, hi⟩ = readW m.memory (m.registers SP + 2 * (i + 1))) ∧
      m1.cap = m.cap ∧
      m1.registers SP = m.registers SP + 2 * n ∧
      (∀ j, j ≠ SP → m1.registers j = m.registers j) ∧
      m1.stack_frame_size = m.stack_frame_size - 2 * n ∧
      m1.memory = m.memory := by
  induction n with
  | zero =>
    intro m hcap hsp hf2 hfW
    exact ⟨[], m, rfl, rfl, fun i hi => (Nat.not_lt_zero i hi).elim, rfl, by omega,
      fun j _ => rfl, by omega, rfl⟩
  | succ n ih =>
    intro m hcap hsp hf2 hfW
    obtain ⟨mp, hpop, hcap', hsp', hregs', hfs', hmem'⟩ :=
      pop_spec_ex m hcap (by omega) (by omega) hfW
    obtain ⟨vals, m1, hrun, hlen, hvals, hcap1, hsp1, hregs1, hfs1, hmem1⟩ :=
      ih mp (by rw [hcap']; exact hcap) (by rw [hsp', hcap']; omega)
        (by rw [hfs']; omega) (by rw [hfs']; omega)
    refine ⟨readW m.memory (m.registers SP + 2) :: vals, m1, ?_, by simp [hlen], ?_,
      by rw [hcap1, hcap'], ?_, ?_, ?_, ?_⟩
    · simp only [Machine.popN, hpop, someBind, hrun]
    · intro i hi
      match i, hi with
      | 0, hi => rfl
      | j + 1, hi =>
        have hj : j < vals.length := by simp only [List.length_cons] at hi; omega
        show vals.get ⟨j, hj⟩ = readW m.memory (m.registers SP + 2 * (j + 1 + 1))
        rw [hvals j hj, hmem', hsp']
        congr 1
        omega
    · rw [hsp1, hsp']
      omega
    · intro j hj
      rw [hregs1 j hj, hregs' j hj]
    · rw [hfs1, hfs']
      omega
    · rw [hmem1, hmem']

/-- Specification of the argument-discard loop: `n` pops that only move SP and
the frame-size counter. -/
theorem popDiscard_spec (n : Nat) :
    ∀ (m : Machine), m.cap ≤ W → m.registers SP + 2 * n + 1 < m.cap →
    2 * n ≤ m.stack_frame_size → m.stack_frame_size < W →
    ∃ m1, m.popDiscard n = some m1 ∧
      m1.cap = m.cap ∧
      m1.registers SP = m.registers SP + 2 * n ∧
      (∀ j, j ≠ SP → m1.registers j = m.registers j) ∧
      m1.stack_frame_size = m.stack_frame_size - 2 * n ∧
      m1.memory = m.memory := by
  induction n with
  | zero =>
    intro m hcap hsp hf2 hfW
    exact ⟨m, rfl, rfl, by omega, fun j _ => rfl, by omega, rfl⟩
  | succ n ih =>
    intro m hcap hsp hf2 hfW
    obtain ⟨mp, hpop, hcap', hsp', hregs', hfs', hmem'⟩ :=
      pop_spec_ex m hcap (by omega) (by omega) hfW
    obtain ⟨m1, hrun, hcap1, hsp1, hregs1, hfs1, hmem1⟩ :=
      ih mp (by rw [hcap']; exact hcap) (by rw [hsp', hcap']; omega)
        (by rw [hfs']; omega) (by rw [hfs']; omega)
    refine ⟨m1, ?_, by rw [hcap1, hcap'], ?_, ?_, ?_, ?_⟩
    · simp only [Machine.popDiscard, hpop, someBind, hrun]
    · rw [hsp1, hsp']
      omega
    · intro j hj
      rw [hregs1 j hj, hregs' j hj]
    · rw [hfs1, hfs']
      omega
    · rw [hmem1, hmem']

end ToyVM

namespace ToyVM

/-- Claim C5: pushing a sequence of 16-bit values and then popping the same
count returns the values in reverse order, and afterwards both SP and the
frame-size counter equal their pre-push values (all stack accesses in bounds,
and the pushes not overflowing the 16-bit frame-size counter). -/
theorem push_pop_roundtrip (m : Machine) (vs : List Nat)
    (hcap : m.cap ≤ W) (hsp : m.registers SP + 1 < m.cap)
    (hroom : 2 * vs.length ≤ m.registers SP)
    (hf : m.stack_frame_size + 2 * vs.length < W)
    (hvals : ∀ v ∈ vs, v < W) :
    ∃ m1 m2, m.pushValues vs = some m1 ∧
      m1.popN vs.length = some (vs.reverse, m2) ∧
      m2.registers SP = m.registers SP ∧
      m2.stack_frame_size = m.stack_frame_size := by
  obtain ⟨m1, hrun1, hcap1, hsp1, hregs1, hfs1, hmem1, hread1⟩ :=
    pushValues_spec vs m hcap hsp hroom hf
  obtain ⟨vals, m2, hrun2, hlen, hvals2, hcap2, hsp2, hregs2, hfs2, hmem2⟩ :=
    popN_spec vs.length m1 (by rw [hcap1]; exact hcap)
      (by rw [hsp1, hcap1]; omega) (by rw [hfs1]; omega) (by rw [hfs1]; omega)
  have hveq : vals = vs.reverse := by
    refine List.ext_get ?_ ?_
    · rw [hlen, List.length_reverse]
    · intro n h1 h2
      have hn : n < vs.length := by rw [hlen] at h1; exact h1
      rw [hvals2 n h1]
      rw [List.get_reverse' vs ⟨n, h2⟩ (show vs.length - 1 - n < vs.length by omega)]
      have haddr : m1.registers SP + 2 * (n + 1) =
          m.registers SP - 2 * (vs.length - 1 - n) := by
        rw [hsp1]
        omega
      rw [haddr, hread1 (vs.length - 1 - n) (by omega)]
      exact Nat.mod_eq_of_lt (hvals _ (vs.get_mem _ _))
  rw [hveq] at hrun2
  refine ⟨m1, m2, hrun1, hrun2, ?_, ?_⟩
  · rw [hsp2, hsp1]
    omega
  · rw [hfs2, hfs1]
    omega

/-- Witness for C5 on a concrete machine and sequence. -/
theorem push_pop_roundtrip_witness :
    ∃ m1 m2, (Machine.new 64).pushValues [7, 9, 11] = some m1 ∧
      m1.popN ([7, 9, 11] : List Nat).length = some (([7, 9, 11] : List Nat).reverse, m2) ∧
      m2.registers SP = (Machine.new 64).registers SP ∧
      m2.stack_frame_size = (Machine.new 64).stack_frame_size :=
  push_pop_roundtrip (Machine.new 64) [7, 9, 11] (by decide) (by decide) (by decide)
    (by decide) (by decide)

end ToyVM

namespace ToyVM

/-- `push_state` is the same program as pushing `savedWords`, followed by
setting FP to the new SP and clearing the frame-size counter. -/
theorem push_state_runs (m : Machine) (hcap : m.cap ≤ W)
    (hsp : m.registers SP + 1 < m.cap) (hroom : 20 ≤ m.registers SP)
    (hf : m.stack_frame_size + 20 < W) :
    ∃ mv, m.pushValues (savedWords m) = some mv ∧
      m.push_state = some { mv.setReg FP (mv.registers SP) with stack_frame_size := 0 } := by
  obtain ⟨m1, h1, hc1, hs1, hr1, hq1, hm1⟩ :=
    push_spec_ex m (m.registers 4) hcap hsp (by omega)
  have hcapA1 : m1.cap = m.cap := hc1
  have hspA1 : m1.registers SP = m.registers SP - 2 := hs1
  have hregA1 : ∀ j, j ≠ SP → m1.registers j = m.registers j := hr1
  have hfsA1 : m1.stack_frame_size = m.stack_frame_size + 2 := by
    rw [hq1]
    exact Nat.mod_eq_of_lt (by omega)
  clear hc1 hs1 hq1
  obtain ⟨m2, h2, hc2, hs2, hr2, hq2, hm2⟩ :=
    push_spec_ex m1 (m1.registers 5) (by rw [hcapA1]; exact hcap) (by rw [hspA1, hcapA1]; omega) (by rw [hspA1]; omega)
  have hcapA2 : m2.cap = m.cap := by rw [hc2, hcapA1]
  have hspA2 : m2.registers SP = m.registers SP - 4 := by
    rw [hs2, hspA1]
    omega
  have hregA2 : ∀ j, j ≠ SP → m2.registers j = m.registers j :=
    fun j hj => (hr2 j hj).trans (hregA1 j hj)
  have hfsA2 : m2.stack_frame_size = m.stack_frame_size + 4 := by
    rw [hq2, hfsA1, Nat.mod_eq_of_lt (show m.stack_frame_size + 2 + 2 < W by omega)]
  clear hc2 hs2 hq2
  obtain ⟨m3, h3, hc3, hs3, hr3, hq3, hm3⟩ :=
    push_spec_ex m2 (m2.registers 6) (by rw [hcapA2]; exact hcap) (by rw [hspA2, hcapA2]; omega) (by rw [hspA2]; omega)
  have hcapA3 : m3.cap = m.cap := by rw [hc3, hcapA2]
  have hspA3 : m3.registers SP = m.registers SP - 6 := by
    rw [hs3, hspA2]
    omega
  have hregA3 : ∀ j, j ≠ SP → m3.registers j = m.registers j :=
    fun j hj => (hr3 j hj).trans (hregA2 j hj)
  have hfsA3 : m3.stack_frame_size = m.stack_frame_size + 6 := by
    rw [hq3, hfsA2, Nat.mod_eq_of_lt (show m.stack_frame_size + 4 + 2 < W by omega)]
  clear hc3 hs3 hq3
  obtain ⟨m4, h4, hc4, hs4, hr4, hq4, hm4⟩ :=
    push_spec_ex m3 (m3.registers 7) (by rw [hcapA3]; exact hcap) (by rw [hspA3, hcapA3]; omega) (by rw [hspA3]; omega)
  have hcapA4 : m4.cap = m.cap := by rw [hc4, hcapA3]
  have hspA4 : m4.registers SP = m.registers SP - 8 := by
    rw [hs4, hspA3]
    omega
  have hregA4 : ∀ j, j ≠ SP → m4.registers j = m.registers j :=
    fun j hj => (hr4 j hj).trans (hregA3 j hj)
  have hfsA4 : m4.stack_frame_size = m.stack_frame_size + 8 := by
    rw [hq4, hfsA3, Nat.mod_eq_of_lt (show m.stack_frame_size + 6 + 2 < W by omega)]
  clear hc4 hs4 hq4
  obtain ⟨m5, h5, hc5, hs5, hr5, hq5, hm5⟩ :=
    push_spec_ex m4 (m4.registers 8) (by rw [hcapA4]; exact hcap) (by rw [hspA4, hcapA4]; omega) (by rw [hspA4]; omega)
  have hcapA5 : m5.cap = m.cap := by rw [hc5, hcapA4]
  have hspA5 : m5.registers SP = m.registers SP - 10 := by
    rw [hs5, hspA4]
    omega
  have hregA5 : ∀ j, j ≠ SP → m5.registers j = m.registers j :=
    fun j hj => (hr5 j hj).trans (hregA4 j hj)
  have hfsA5 : m5.stack_frame_size = m.stack_frame_size + 10 := by
    rw [hq5, hfsA4, Nat.mod_eq_of_lt (show m.stack_frame_size + 8 + 2 < W by omega)]
  clear hc5 hs5 hq5
  obtain ⟨m6, h6, hc6, hs6, hr6, hq6, hm6⟩ :=
    push_spec_ex m5 (m5.registers 9) (by rw [hcapA5]; exact hcap) (by rw [hspA5, hcapA5]; omega) (by rw [hspA5]; omega)
  have hcapA6 : m6.cap = m.cap := by rw [hc6, hcapA5]
  have hspA6 : m6.registers SP = m.registers SP - 12 := by
    rw [hs6, hspA5]
    omega
  have hregA6 : ∀ j, j ≠ SP → m6.registers j = m.registers j :=
    fun j hj => (hr6 j hj).trans (hregA5 j hj)
  have hfsA6 : m6.stack_frame_size = m.stack_frame_size + 12 := by
    rw [hq6, hfsA5, Nat.mod_eq_of_lt (show m.stack_frame_size + 10 + 2 < W by omega)]
  clear hc6 hs6 hq6
  obtain ⟨m7, h7, hc7, hs7, hr7, hq7, hm7⟩ :=
    push_spec_ex m6 (m6.registers 10) (by rw [hcapA6]; exact hcap) (by rw [hspA6, hcapA6]; omega) (by rw [hspA6]; omega)
  have hcapA7 : m7.cap = m.cap := by rw [hc7, hcapA6]
  have hspA7 : m7.registers SP = m.registers SP - 14 := by
    rw [hs7, hspA6]
    omega
  have hregA7 : ∀ j, j ≠ SP → m7.registers j = m.registers j :=
    fun j hj => (hr7 j hj).trans (hregA6 j hj)
  have hfsA7 : m7.stack_frame_size = m.stack_frame_size + 14 := by
    rw [hq7, hfsA6, Nat.mod_eq_of_lt (show m.stack_frame_size + 12 + 2 < W by omega)]
  clear hc7 hs7 hq7
  obtain ⟨m8, h8, hc8, hs8, hr8, hq8, hm8⟩ :=
    push_spec_ex m7 (m7.registers 11) (by rw [hcapA7]; exact hcap) (by rw [hspA7, hcapA7]; omega) (by rw [hspA7]; omega)
  have hcapA8 : m8.cap = m.cap := by rw [hc8, hcapA7]
  have hspA8 : m8.registers SP = m.registers SP - 16 := by
    rw [hs8, hspA7]
    omega
  have hregA8 : ∀ j, j ≠ SP → m8.registers j = m.registers j :=
    fun j hj => (hr8 j hj).trans (hregA7 j hj)
  have hfsA8 : m8.stack_frame_size = m.stack_frame_size + 16 := by
    rw [hq8, hfsA7, Nat.mod_eq_of_lt (show m.stack_frame_size + 14 + 2 < W by omega)]
  clear hc8 hs8 hq8
  obtain ⟨m9, h9, hc9, hs9, hr9, hq9, hm9⟩ :=
    push_spec_ex m8 (m8.registers IP) (by rw [hcapA8]; exact hcap) (by rw [hspA8, hcapA8]; omega) (by rw [hspA8]; omega)
  have hcapA9 : m9.cap = m.cap := by rw [hc9, hcapA8]
  have hspA9 : m9.registers SP = m.registers SP - 18 := by
    rw [hs9, hspA8]
    omega
  have hregA9 : ∀ j, j ≠ SP → m9.registers j = m.registers j :=
    fun j hj => (hr9 j hj).trans (hregA8 j hj)
  have hfsA9 : m9.stack_frame_size = m.stack_frame_size + 18 := by
    rw [hq9, hfsA8, Nat.mod_eq_of_lt (show m.stack_frame_size + 16 + 2 < W by omega)]
  clear hc9 hs9 hq9
  obtain ⟨m10, h10, hc10, hs10, hr10, hq10, hm10⟩ :=
    push_spec_ex m9 ((m9.stack_frame_size + 2) % W) (by rw [hcapA9]; exact hcap) (by rw [hspA9, hcapA9]; omega) (by rw [hspA9]; omega)
  have hcapA10 : m10.cap = m.cap := by rw [hc10, hcapA9]
  have hspA10 : m10.registers SP = m.registers SP - 20 := by
    rw [hs10, hspA9]
    omega
  have hregA10 : ∀ j, j ≠ SP → m10.registers j = m.registers j :=
    fun j hj => (hr10 j hj).trans (hregA9 j hj)
  have hfsA10 : m10.stack_frame_size = m.stack_frame_size + 20 := by
    rw [hq10, hfsA9, Nat.mod_eq_of_lt (show m.stack_frame_size + 18 + 2 < W by omega)]
  clear hc10 hs10 hq10
  have hps : m.push_state =
      some { m10.setReg FP (m10.registers SP) with stack_frame_size := 0 } := by
    simp only [Machine.push_state, h1, h2, h3, h4, h5, h6, h7, h8, h9, h10, someBind]
  have h2v := h2
  rw [hregA1 5 (by decide)] at h2v
  have h3v := h3
  rw [hregA2 6 (by decide)] at h3v
  have h4v := h4
  rw [hregA3 7 (by decide)] at h4v
  have h5v := h5
  rw [hregA4 8 (by decide)] at h5v
  have h6v := h6
  rw [hregA5 9 (by decide)] at h6v
  have h7v := h7
  rw [hregA6 10 (by decide)] at h7v
  have h8v := h8
  rw [hregA7 11 (by decide)] at h8v
  have h9v := h9
  rw [show m8.registers IP = m.registers IP from hregA8 IP (by decide)] at h9v
  have h10v := h10
  rw [hfsA9, Nat.mod_eq_of_lt (show m.stack_frame_size + 18 + 2 < W by omega),
    show m.stack_frame_size + 18 + 2 = m.stack_frame_size + 20 from by omega] at h10v
  have hpv : m.pushValues (savedWords m) = some m10 := by
    simp only [savedWords, Machine.pushValues, h1, h2v, h3v, h4v, h5v, h6v, h7v, h8v,
      h9v, h10v, someBind]
  exact ⟨m10, hpv, hps⟩

/-- Specification of `push_state`: the ten saved words land at SP, SP-2, ...,
SP-18 (R1 first, the frame-size word last), SP and FP drop to SP-20, the
frame-size counter resets to 0, and everything else is untouched. -/
theorem push_state_spec (m : Machine) (hcap : m.cap ≤ W)
    (hsp : m.registers SP + 1 < m.cap) (hroom : 20 ≤ m.registers SP)
    (hf : m.stack_frame_size + 20 < W) :
    ∃ ms, m.push_state = some ms ∧
      ms.cap = m.cap ∧
      ms.registers SP = m.registers SP - 20 ∧
      ms.registers FP = m.registers SP - 20 ∧
      ms.stack_frame_size = 0 ∧
      (∀ j, j ≠ SP → j ≠ FP → ms.registers j = m.registers j) ∧
      (∀ x, x + 20 ≤ m.registers SP + 1 ∨ m.registers SP + 1 < x →
        ms.memory x = m.memory x) ∧
      readW ms.memory (m.registers SP) = m.registers 4 % W ∧
      readW ms.memory (m.registers SP - 2) = m.registers 5 % W ∧
      readW ms.memory (m.registers SP - 4) = m.registers 6 % W ∧
      readW ms.memory (m.registers SP - 6) = m.registers 7 % W ∧
      readW ms.memory (m.registers SP - 8) = m.registers 8 % W ∧
      readW ms.memory (m.registers SP - 10) = m.registers 9 % W ∧
      readW ms.memory (m.registers SP - 12) = m.registers 10 % W ∧
      readW ms.memory (m.registers SP - 14) = m.registers 11 % W ∧
      readW ms.memory (m.registers SP - 16) = m.registers IP % W ∧
      readW ms.memory (m.registers SP - 18) = m.stack_frame_size + 20 := by
  obtain ⟨mv, hpv, hps⟩ := push_state_runs m hcap hsp hroom hf
  obtain ⟨mv2, hv, hcapv, hspv, hregv, hfsv, hmemv, hreadv⟩ :=
    pushValues_spec (savedWords m) m hcap hsp
      (show 2 * (savedWords m).length ≤ m.registers SP from by
        simp only [savedWords, List.length_cons, List.length_nil]
        omega)
      (show m.stack_frame_size + 2 * (savedWords m).length < W from by
        simp only [savedWords, List.length_cons, List.length_nil]
        omega)
  have hmveq : mv2 = mv := Option.some.inj (hv.symm.trans hpv)
  subst hmveq
  refine ⟨{ mv2.setReg FP (mv2.registers SP) with stack_frame_size := 0 },
    hps, hcapv, ?_, ?_, rfl, ?_, ?_, ?_, ?_, ?_, ?_, ?_, ?_, ?_, ?_, ?_, ?_⟩
  · exact (setReg_registers_ne mv2 FP (mv2.registers SP) SP (by decide)).trans
      (by rw [hspv]; rfl)
  · exact (setReg_registers_same mv2 FP (mv2.registers SP)).trans (by rw [hspv]; rfl)
  · intro j hjs hjf
    exact (setReg_registers_ne mv2 FP (mv2.registers SP) j hjf).trans (hregv j hjs)
  · intro x hx
    exact hmemv x hx
  · exact hreadv 0 (by norm_num [savedWords])
  · exact hreadv 1 (by norm_num [savedWords])
  · exact hreadv 2 (by norm_num [savedWords])
  · exact hreadv 3 (by norm_num [savedWords])
  · exact hreadv 4 (by norm_num [savedWords])
  · exact hreadv 5 (by norm_num [savedWords])
  · exact hreadv 6 (by norm_num [savedWords])
  · exact hreadv 7 (by norm_num [savedWords])
  · exact hreadv 8 (by norm_num [savedWords])
  · have hlast : readW mv2.memory (m.registers SP - 18) =
        (m.stack_frame_size + 20) % W := hreadv 9 (by norm_num [savedWords])
    rw [Nat.mod_eq_of_lt (show m.stack_frame_size + 20 < W by omega)] at hlast
    exact hlast

end ToyVM

namespace ToyVM

/-- Claim C2 (refuted by the code): FP does not round-trip through a matched
`CallLit`/`Ret` pair.  On a fresh capacity-100 machine (`SP = FP = 98`) that
pushes a single argument-count word 0 and then runs `CallLit` followed by
`Ret`, the restored FP is 78 = pre-call FP − 20, not the pre-call value 98:
`pop_state` adds the frame-size counter to the frame boundary only after the
restore pops have decremented it. -/
theorem fp_not_restored_after_ret :
    (Machine.new 100).push 0 = some c2m1 ∧
    c2m1.execute .CallLit = some (c2m2, none) ∧
    c2m2.execute .Ret = some (c2m3, none) ∧
    c2m1.registers FP = 98 ∧
    c2m3.registers FP = 78 ∧
    c2m3.registers FP ≠ c2m1.registers FP :=
  ⟨rfl, rfl, rfl, rfl, rfl, by decide⟩

end ToyVM

namespace ToyVM

/-! ### The `pop_state` restore sequence, step by step -/

/-- Pop number 1 of the `pop_state` restore sequence, stated on the exact
composite machine the `pop_state` program builds at that point. -/
theorem ret_step1 (m : Machine) (n : Nat) (hcap : m.cap ≤ W)
    (hbound : m.registers FP + 23 + 2 * n < m.cap)
    (hfs_lo : 20 + 2 * n ≤ readW m.memory (m.registers FP + 2))
    (hfs_hi : readW m.memory (m.registers FP + 2) < W) :
    (m.setReg SP (m.registers FP)).pop =
      some (readW m.memory (m.registers FP + 2), popStage1 m) := by
  have hCsp : (m.setReg SP (m.registers FP)).registers SP = m.registers FP := by
    simp [Machine.setReg]
  rw [pop_spec (m.setReg SP (m.registers FP)) hcap
    (by rw [hCsp]; show m.registers FP + 3 < m.cap; omega)]
  rw [hCsp]
  rw [show (m.setReg SP (m.registers FP)).memory = m.memory from rfl]
  rw [show (m.setReg SP (m.registers FP)).stack_frame_size = m.stack_frame_size from rfl]
  refine congrArg some (congrArg (Prod.mk _) (Machine.ext rfl (funext fun j => ?_) rfl rfl))
  · rcases eq_or_ne j SP with h | h
    · subst h
      simp [popStage1, SP, IP]
    · simp [popStage1, Machine.setReg, h]

/-- Pop number 2 of the `pop_state` restore sequence, stated on the exact
composite machine the `pop_state` program builds at that point. -/
theorem ret_step2 (m : Machine) (n : Nat) (hcap : m.cap ≤ W)
    (hbound : m.registers FP + 23 + 2 * n < m.cap)
    (hfs_lo : 20 + 2 * n ≤ readW m.memory (m.registers FP + 2))
    (hfs_hi : readW m.memory (m.registers FP + 2) < W) :
    ({ cap := (popStage1 m).cap, registers := (popStage1 m).registers, stack_frame_size := readW m.memory (m.registers FP + 2), memory := (popStage1 m).memory } : Machine).pop =
      some (readW m.memory (m.registers FP + 4), popStage2 m) := by
  have hCsp : ({ cap := (popStage1 m).cap, registers := (popStage1 m).registers, stack_frame_size := readW m.memory (m.registers FP + 2), memory := (popStage1 m).memory } : Machine).registers SP = m.registers FP + 2 := by
    simp [popStage1]
  rw [pop_spec ({ cap := (popStage1 m).cap, registers := (popStage1 m).registers, stack_frame_size := readW m.memory (m.registers FP + 2), memory := (popStage1 m).memory } : Machine) hcap
    (by rw [hCsp]; show m.registers FP + 2 + 3 < m.cap; omega)]
  rw [hCsp]
  rw [show m.registers FP + 2 + 2 = m.registers FP + 4 from by omega]
  rw [show ({ cap := (popStage1 m).cap, registers := (popStage1 m).registers, stack_frame_size := readW m.memory (m.registers FP + 2), memory := (popStage1 m).memory } : Machine).memory = m.memory from rfl]
  rw [show ({ cap := (popStage1 m).cap, registers := (popStage1 m).registers, stack_frame_size := readW m.memory (m.registers FP + 2), memory := (popStage1 m).memory } : Machine).stack_frame_size = readW m.memory (m.registers FP + 2) from rfl]
  refine congrArg some (congrArg (Prod.mk _) (Machine.ext rfl (funext fun j => ?_) ?_ rfl))
  · rcases eq_or_ne j SP with h | h
    · subst h
      simp [popStage2, SP, IP]
    · simp [popStage1, popStage2, Machine.setReg, SP, IP, h]
  · rw [sub2_mod _ (by omega) (by omega)]
    show readW m.memory (m.registers FP + 2) - 2 = readW m.memory (m.registers FP + 2) - 2
    omega

/-- Pop number 3 of the `pop_state` restore sequence, stated on the exact
composite machine the `pop_state` program builds at that point. -/
theorem ret_step3 (m : Machine) (n : Nat) (hcap : m.cap ≤ W)
    (hbound : m.registers FP + 23 + 2 * n < m.cap)
    (hfs_lo : 20 + 2 * n ≤ readW m.memory (m.registers FP + 2))
    (hfs_hi : readW m.memory (m.registers FP + 2) < W) :
    ((popStage2 m).setReg IP (readW m.memory (m.registers FP + 4))).pop =
      some (readW m.memory (m.registers FP + 6), popStage3 m) := by
  have hCsp : ((popStage2 m).setReg IP (readW m.memory (m.registers FP + 4))).registers SP = m.registers FP + 4 := by
    simp [popStage2, Machine.setReg, SP, IP]
  rw [pop_spec ((popStage2 m).setReg IP (readW m.memory (m.registers FP + 4))) hcap
    (by rw [hCsp]; show m.registers FP + 4 + 3 < m.cap; omega)]
  rw [hCsp]
  rw [show m.registers FP + 4 + 2 = m.registers FP + 6 from by omega]
  rw [show ((popStage2 m).setReg IP (readW m.memory (m.registers FP + 4))).memory = m.memory from rfl]
  rw [show ((popStage2 m).setReg IP (readW m.memory (m.registers FP + 4))).stack_frame_size = readW m.memory (m.registers FP + 2) - 2 from rfl]
  refine congrArg some (congrArg (Prod.mk _) (Machine.ext rfl (funext fun j => ?_) ?_ rfl))
  · rcases eq_or_ne j SP with h | h
    · subst h
      simp [popStage3, SP, IP]
    · rcases eq_or_ne j IP with ha0 | ha0
      · subst ha0
        simp [popStage2, popStage3, Machine.setReg, SP, IP]
      · simp [popStage2, popStage3, Machine.setReg, SP, IP, h, ha0]
  · rw [sub2_mod _ (by omega) (by omega)]
    show readW m.memory (m.registers FP + 2) - 2 - 2 = readW m.memory (m.registers FP + 2) - 4
    omega

/-- Pop number 4 of the `pop_state` restore sequence, stated on the exact
composite machine the `pop_state` program builds at that point. -/
theorem ret_step4 (m : Machine) (n : Nat) (hcap : m.cap ≤ W)
    (hbound : m.registers FP + 23 + 2 * n < m.cap)
    (hfs_lo : 20 + 2 * n ≤ readW m.memory (m.registers FP + 2))
    (hfs_hi : readW m.memory (m.registers FP + 2) < W) :
    ((popStage3 m).setReg 11 (readW m.memory (m.registers FP + 6))).pop =
      some (readW m.memory (m.registers FP + 8), popStage4 m) := by
  have hCsp : ((popStage3 m).setReg 11 (readW m.memory (m.registers FP + 6))).registers SP = m.registers FP + 6 := by
    simp [popStage3, Machine.setReg, SP, IP]
  rw [pop_spec ((popStage3 m).setReg 11 (readW m.memory (m.registers FP + 6))) hcap
    (by rw [hCsp]; show m.registers FP + 6 + 3 < m.cap; omega)]
  rw [hCsp]
  rw [show m.registers FP + 6 + 2 = m.registers FP + 8 from by omega]
  rw [show ((popStage3 m).setReg 11 (readW m.memory (m.registers FP + 6))).memory = m.memory from rfl]
  rw [show ((popStage3 m).setReg 11 (readW m.memory (m.registers FP + 6))).stack_frame_size = readW m.memory (m.registers FP + 2) - 4 from rfl]
  refine congrArg some (congrArg (Prod.mk _) (Machine.ext rfl (funext fun j => ?_) ?_ rfl))
  · rcases eq_or_ne j SP with h | h
    · subst h
      simp [popStage4, SP, IP]
    · rcases eq_or_ne j IP with ha0 | ha0
      · subst ha0
        simp [popStage3, popStage4, Machine.setReg, SP, IP]
      · rcases eq_or_ne j 11 with ha1 | ha1
        · subst ha1
          simp [popStage3, popStage4, Machine.setReg, SP, IP]
        · simp [popStage3, popStage4, Machine.setReg, SP, IP, h, ha0, ha1]
  · rw [sub2_mod _ (by omega) (by omega)]
    show readW m.memory (m.registers FP + 2) - 4 - 2 = readW m.memory (m.registers FP + 2) - 6
    omega

/-- Pop number 5 of the `pop_state` restore sequence, stated on the exact
composite machine the `pop_state` program builds at that point. -/
theorem ret_step5 (m : Machine) (n : Nat) (hcap : m.cap ≤ W)
    (hbound : m.registers FP + 23 + 2 * n < m.cap)
    (hfs_lo : 20 + 2 * n ≤ readW m.memory (m.registers FP + 2))
    (hfs_hi : readW m.memory (m.registers FP + 2) < W) :
    ((popStage4 m).setReg 10 (readW m.memory (m.registers FP + 8))).pop =
      some (readW m.memory (m.registers FP + 10), popStage5 m) := by
  have hCsp : ((popStage4 m).setReg 10 (readW m.memory (m.registers FP + 8))).registers SP = m.registers FP + 8 := by
    simp [popStage4, Machine.setReg, SP, IP]
  rw [pop_spec ((popStage4 m).setReg 10 (readW m.memory (m.registers FP + 8))) hcap
    (by rw [hCsp]; show m.registers FP + 8 + 3 < m.cap; omega)]
  rw [hCsp]
  rw [show m.registers FP + 8 + 2 = m.registers FP + 10 from by omega]
  rw [show ((popStage4 m).setReg 10 (readW m.memory (m.registers FP + 8))).memory = m.memory from rfl]
  rw [show ((popStage4 m).setReg 10 (readW m.memory (m.registers FP + 8))).stack_frame_size = readW m.memory (m.registers FP + 2) - 6 from rfl]
  refine congrArg some (congrArg (Prod.mk _) (Machine.ext rfl (funext fun j => ?_) ?_ rfl))
  · rcases eq_or_ne j SP with h | h
    · subst h
      simp [popStage5, SP, IP]
    · rcases eq_or_ne j IP with ha0 | ha0
      · subst ha0
        simp [popStage4, popStage5, Machine.setReg, SP, IP]
      · rcases eq_or_ne j 11 with ha1 | ha1
        · subst ha1
          simp [popStage4, popStage5, Machine.setReg, SP, IP]
        · rcases eq_or_ne j 10 with ha2 | ha2
          · subst ha2
            simp [popStage4, popStage5, Machine.setReg, SP, IP]
          · simp [popStage4, popStage5, Machine.setReg, SP, IP, h, ha0, ha1, ha2]
  · rw [sub2_mod _ (by omega) (by omega)]
    show readW m.memory (m.registers FP + 2) - 6 - 2 = readW m.memory (m.registers FP + 2) - 8
    omega

/-- Pop number 6 of the `pop_state` restore sequence, stated on the exact
composite machine the `pop_state` program builds at that point. -/
theorem ret_step6 (m : Machine) (n : Nat) (hcap : m.cap ≤ W)
    (hbound : m.registers FP + 23 + 2 * n < m.cap)
    (hfs_lo : 20 + 2 * n ≤ readW m.memory (m.registers FP + 2))
    (hfs_hi : readW m.memory (m.registers FP + 2) < W) :
    ((popStage5 m).setReg 9 (readW m.memory (m.registers FP + 10))).pop =
      some (readW m.memory (m.registers FP + 12), popStage6 m) := by
  have hCsp : ((popStage5 m).setReg 9 (readW m.memory (m.registers FP + 10))).registers SP = m.registers FP + 10 := by
    simp [popStage5, Machine.setReg, SP, IP]
  rw [pop_spec ((popStage5 m).setReg 9 (readW m.memory (m.registers FP + 10))) hcap
    (by rw [hCsp]; show m.registers FP + 10 + 3 < m.cap; omega)]
  rw [hCsp]
  rw [show m.registers FP + 10 + 2 = m.registers FP + 12 from by omega]
  rw [show ((popStage5 m).setReg 9 (readW m.memory (m.registers FP + 10))).memory = m.memory from rfl]
  rw [show ((popStage5 m).setReg 9 (readW m.memory (m.registers FP + 10))).stack_frame_size = readW m.memory (m.registers FP + 2) - 8 from rfl]
  refine congrArg some (congrArg (Prod.mk _) (Machine.ext rfl (funext fun j => ?_) ?_ rfl))
  · rcases eq_or_ne j SP with h | h
    · subst h
      simp [popStage6, SP, IP]
    · rcases eq_or_ne j IP with ha0 | ha0
      · subst ha0
        simp [popStage5, popStage6, Machine.setReg, SP, IP]
      · rcases eq_or_ne j 11 with ha1 | ha1
        · subst ha1
          simp [popStage5, popStage6, Machine.setReg, SP, IP]
        · rcases eq_or_ne j 10 with ha2 | ha2
          · subst ha2
            simp [popStage5, popStage6, Machine.setReg, SP, IP]
          · rcases eq_or_ne j 9 with ha3 | ha3
            · subst ha3
              simp [popStage5, popStage6, Machine.setReg, SP, IP]
            · simp [popStage5, popStage6, Machine.setReg, SP, IP, h, ha0, ha1, ha2, ha3]
  · rw [sub2_mod _ (by omega) (by omega)]
    show readW m.memory (m.registers FP + 2) - 8 - 2 = readW m.memory (m.registers FP + 2) - 10
    omega

/-- Pop number 7 of the `pop_state` restore sequence, stated on the exact
composite machine the `pop_state` program builds at that point. -/
theorem ret_step7 (m : Machine) (n : Nat) (hcap : m.cap ≤ W)
    (hbound : m.registers FP + 23 + 2 * n < m.cap)
    (hfs_lo : 20 + 2 * n ≤ readW m.memory (m.registers FP + 2))
    (hfs_hi : readW m.memory (m.registers FP + 2) < W) :
    ((popStage6 m).setReg 8 (readW m.memory (m.registers FP + 12))).pop =
      some (readW m.memory (m.registers FP + 14), popStage7 m) := by
  have hCsp : ((popStage6 m).setReg 8 (readW m.memory (m.registers FP + 12))).registers SP = m.registers FP + 12 := by
    simp [popStage6, Machine.setReg, SP, IP]
  rw [pop_spec ((popStage6 m).setReg 8 (readW m.memory (m.registers FP + 12))) hcap
    (by rw [hCsp]; show m.registers FP + 12 + 3 < m.cap; omega)]
  rw [hCsp]
  rw [show m.registers FP + 12 + 2 = m.registers FP + 14 from by omega]
  rw [show ((popStage6 m).setReg 8 (readW m.memory (m.registers FP + 12))).memory = m.memory from rfl]
  rw [show ((popStage6 m).setReg 8 (readW m.memory (m.registers FP + 12))).stack_frame_size = readW m.memory (m.registers FP + 2) - 10 from rfl]
  refine congrArg some (congrArg (Prod.mk _) (Machine.ext rfl (funext fun j => ?_) ?_ rfl))
  · rcases eq_or_ne j SP with h | h
    · subst h
      simp [popStage7, SP, IP]
    · rcases eq_or_ne j IP with ha0 | ha0
      · subst ha0
        simp [popStage6, popStage7, Machine.setReg, SP, IP]
      · rcases eq_or_ne j 11 with ha1 | ha1
        · subst ha1
          simp [popStage6, popStage7, Machine.setReg, SP, IP]
        · rcases eq_or_ne j 10 with ha2 | ha2
          · subst ha2
            simp [popStage6, popStage7, Machine.setReg, SP, IP]
          · rcases eq_or_ne j 9 with ha3 | ha3
            · subst ha3
              simp [popStage6, popStage7, Machine.setReg, SP, IP]
            · rcases eq_or_ne j 8 with ha4 | ha4
              · subst ha4
                simp [popStage6, popStage7, Machine.setReg, SP, IP]
              · simp [popStage6, popStage7, Machine.setReg, SP, IP, h, ha0, ha1, ha2, ha3, ha4]
  · rw [sub2_mod _ (by omega) (by omega)]
    show readW m.memory (m.registers FP + 2) - 10 - 2 = readW m.memory (m.registers FP + 2) - 12
    omega

/-- Pop number 8 of the `pop_state` restore sequence, stated on the exact
composite machine the `pop_state` program builds at that point. -/
theorem ret_step8 (m : Machine) (n : Nat) (hcap : m.cap ≤ W)
    (hbound : m.registers FP + 23 + 2 * n < m.cap)
    (hfs_lo : 20 + 2 * n ≤ readW m.memory (m.registers FP + 2))
    (hfs_hi : readW m.memory (m.registers FP + 2) < W) :
    ((popStage7 m).setReg 7 (readW m.memory (m.registers FP + 14))).pop =
      some (readW m.memory (m.registers FP + 16), popStage8 m) := by
  have hCsp : ((popStage7 m).setReg 7 (readW m.memory (m.registers FP + 14))).registers SP = m.registers FP + 14 := by
    simp [popStage7, Machine.setReg, SP, IP]
  rw [pop_spec ((popStage7 m).setReg 7 (readW m.memory (m.registers FP + 14))) hcap
    (by rw [hCsp]; show m.registers FP + 14 + 3 < m.cap; omega)]
  rw [hCsp]
  rw [show m.registers FP + 14 + 2 = m.registers FP + 16 from by omega]
  rw [show ((popStage7 m).setReg 7 (readW m.memory (m.registers FP + 14))).memory = m.memory from rfl]
  rw [show ((popStage7 m).setReg 7 (readW m.memory (m.registers FP + 14))).stack_frame_size = readW m.memory (m.registers FP + 2) - 12 from rfl]
  refine congrArg some (congrArg (Prod.mk _) (Machine.ext rfl (funext fun j => ?_) ?_ rfl))
  · rcases eq_or_ne j SP with h | h
    · subst h
      simp [popStage8, SP, IP]
    · rcases eq_or_ne j IP with ha0 | ha0
      · subst ha0
        simp [popStage7, popStage8, Machine.setReg, SP, IP]
      · rcases eq_or_ne j 11 with ha1 | ha1
        · subst ha1
          simp [popStage7, popStage8, Machine.setReg, SP, IP]
        · rcases eq_or_ne j 10 with ha2 | ha2
          · subst ha2
            simp [popStage7, popStage8, Machine.setReg, SP, IP]
          · rcases eq_or_ne j 9 with ha3 | ha3
            · subst ha3
              simp [popStage7, popStage8, Machine.setReg, SP, IP]
            · rcases eq_or_ne j 8 with ha4 | ha4
              · subst ha4
                simp [popStage7, popStage8, Machine.setReg, SP, IP]
              · rcases eq_or_ne j 7 with ha5 | ha5
                · subst ha5
                  simp [popStage7, popStage8, Machine.setReg, SP, IP]
                · simp [popStage7, popStage8, Machine.setReg, SP, IP, h, ha0, ha1, ha2, ha3, ha4, ha5]
  · rw [sub2_mod _ (by omega) (by omega)]
    show readW m.memory (m.registers FP + 2) - 12 - 2 = readW m.memory (m.registers FP + 2) - 14
    omega

/-- Pop number 9 of the `pop_state` restore sequence, stated on the exact
composite machine the `pop_state` program builds at that point. -/
theorem ret_step9 (m : Machine) (n : Nat) (hcap : m.cap ≤ W)
    (hbound : m.registers FP + 23 + 2 * n < m.cap)
    (hfs_lo : 20 + 2 * n ≤ readW m.memory (m.registers FP + 2))
    (hfs_hi : readW m.memory (m.registers FP + 2) < W) :
    ((popStage8 m).setReg 6 (readW m.memory (m.registers FP + 16))).pop =
      some (readW m.memory (m.registers FP + 18), popStage9 m) := by
  have hCsp : ((popStage8 m).setReg 6 (readW m.memory (m.registers FP + 16))).registers SP = m.registers FP + 16 := by
    simp [popStage8, Machine.setReg, SP, IP]
  rw [pop_spec ((popStage8 m).setReg 6 (readW m.memory (m.registers FP + 16))) hcap
    (by rw [hCsp]; show m.registers FP + 16 + 3 < m.cap; omega)]
  rw [hCsp]
  rw [show m.registers FP + 16 + 2 = m.registers FP + 18 from by omega]
  rw [show ((popStage8 m).setReg 6 (readW m.memory (m.registers FP + 16))).memory = m.memory from rfl]
  rw [show ((popStage8 m).setReg 6 (readW m.memory (m.registers FP + 16))).stack_frame_size = readW m.memory (m.registers FP + 2) - 14 from rfl]
  refine congrArg some (congrArg (Prod.mk _) (Machine.ext rfl (funext fun j => ?_) ?_ rfl))
  · rcases eq_or_ne j SP with h | h
    · subst h
      simp [popStage9, SP, IP]
    · rcases eq_or_ne j IP with ha0 | ha0
      · subst ha0
        simp [popStage8, popStage9, Machine.setReg, SP, IP]
      · rcases eq_or_ne j 11 with ha1 | ha1
        · subst ha1
          simp [popStage8, popStage9, Machine.setReg, SP, IP]
        · rcases eq_or_ne j 10 with ha2 | ha2
          · subst ha2
            simp [popStage8, popStage9, Machine.setReg, SP, IP]
          · rcases eq_or_ne j 9 with ha3 | ha3
            · subst ha3
              simp [popStage8, popStage9, Machine.setReg, SP, IP]
            · rcases eq_or_ne j 8 with ha4 | ha4
              · subst ha4
                simp [popStage8, popStage9, Machine.setReg, SP, IP]
              · rcases eq_or_ne j 7 with ha5 | ha5
                · subst ha5
                  simp [popStage8, popStage9, Machine.setReg, SP, IP]
                · rcases eq_or_ne j 6 with ha6 | ha6
                  · subst ha6
                    simp [popStage8, popStage9, Machine.setReg, SP, IP]
                  · simp [popStage8, popStage9, Machine.setReg, SP, IP, h, ha0, ha1, ha2, ha3, ha4, ha5, ha6]
  · rw [sub2_mod _ (by omega) (by omega)]
    show readW m.memory (m.registers FP + 2) - 14 - 2 = readW m.memory (m.registers FP + 2) - 16
    omega

/-- Pop number 10 of the `pop_state` restore sequence, stated on the exact
composite machine the `pop_state` program builds at that point. -/
theorem ret_step10 (m : Machine) (n : Nat) (hcap : m.cap ≤ W)
    (hbound : m.registers FP + 23 + 2 * n < m.cap)
    (hfs_lo : 20 + 2 * n ≤ readW m.memory (m.registers FP + 2))
    (hfs_hi : readW m.memory (m.registers FP + 2) < W) :
    ((popStage9 m).setReg 5 (readW m.memory (m.registers FP + 18))).pop =
      some (readW m.memory (m.registers FP + 20), popStage10 m) := by
  have hCsp : ((popStage9 m).setReg 5 (readW m.memory (m.registers FP + 18))).registers SP = m.registers FP + 18 := by
    simp [popStage9, Machine.setReg, SP, IP]
  rw [pop_spec ((popStage9 m).setReg 5 (readW m.memory (m.registers FP + 18))) hcap
    (by rw [hCsp]; show m.registers FP + 18 + 3 < m.cap; omega)]
  rw [hCsp]
  rw [show m.registers FP + 18 + 2 = m.registers FP + 20 from by omega]
  rw [show ((popStage9 m).setReg 5 (readW m.memory (m.registers FP + 18))).memory = m.memory from rfl]
  rw [show ((popStage9 m).setReg 5 (readW m.memory (m.registers FP + 18))).stack_frame_size = readW m.memory (m.registers FP + 2) - 16 from rfl]
  refine congrArg some (congrArg (Prod.mk _) (Machine.ext rfl (funext fun j => ?_) ?_ rfl))
  · rcases eq_or_ne j SP with h | h
    · subst h
      simp [popStage10, SP, IP]
    · rcases eq_or_ne j IP with ha0 | ha0
      · subst ha0
        simp [popStage9, popStage10, Machine.setReg, SP, IP]
      · rcases eq_or_ne j 11 with ha1 | ha1
        · subst ha1
          simp [popStage9, popStage10, Machine.setReg, SP, IP]
        · rcases eq_or_ne j 10 with ha2 | ha2
          · subst ha2
            simp [popStage9, popStage10, Machine.setReg, SP, IP]
          · rcases eq_or_ne j 9 with ha3 | ha3
            · subst ha3
              simp [popStage9, popStage10, Machine.setReg, SP, IP]
            · rcases eq_or_ne j 8 with ha4 | ha4
              · subst ha4
                simp [popStage9, popStage10, Machine.setReg, SP, IP]
              · rcases eq_or_ne j 7 with ha5 | ha5
                · subst ha5
                  simp [popStage9, popStage10, Machine.setReg, SP, IP]
                · rcases eq_or_ne j 6 with ha6 | ha6
                  · subst ha6
                    simp [popStage9, popStage10, Machine.setReg, SP, IP]
                  · rcases eq_or_ne j 5 with ha7 | ha7
                    · subst ha7
                      simp [popStage9, popStage10, Machine.setReg, SP, IP]
                    · simp [popStage9, popStage10, Machine.setReg, SP, IP, h, ha0, ha1, ha2, ha3, ha4, ha5, ha6, ha7]
  · rw [sub2_mod _ (by omega) (by omega)]
    show readW m.memory (m.registers FP + 2) - 16 - 2 = readW m.memory (m.registers FP + 2) - 18
    omega

/-- Pop number 11 of the `pop_state` restore sequence, stated on the exact
composite machine the `pop_state` program builds at that point. -/
theorem ret_step11 (m : Machine) (n : Nat) (hcap : m.cap ≤ W)
    (hbound : m.registers FP + 23 + 2 * n < m.cap)
    (hfs_lo : 20 + 2 * n ≤ readW m.memory (m.registers FP + 2))
    (hfs_hi : readW m.memory (m.registers FP + 2) < W) :
    ((popStage10 m).setReg 4 (readW m.memory (m.registers FP + 20))).pop =
      some (readW m.memory (m.registers FP + 22), popStage11 m) := by
  have hCsp : ((popStage10 m).setReg 4 (readW m.memory (m.registers FP + 20))).registers SP = m.registers FP + 20 := by
    simp [popStage10, Machine.setReg, SP, IP]
  rw [pop_spec ((popStage10 m).setReg 4 (readW m.memory (m.registers FP + 20))) hcap
    (by rw [hCsp]; show m.registers FP + 20 + 3 < m.cap; omega)]
  rw [hCsp]
  rw [show m.registers FP + 20 + 2 = m.registers FP + 22 from by omega]
  rw [show ((popStage10 m).setReg 4 (readW m.memory (m.registers FP + 20))).memory = m.memory from rfl]
  rw [show ((popStage10 m).setReg 4 (readW m.memory (m.registers FP + 20))).stack_frame_size = readW m.memory (m.registers FP + 2) - 18 from rfl]
  refine congrArg some (congrArg (Prod.mk _) (Machine.ext rfl (funext fun j => ?_) ?_ rfl))
  · rcases eq_or_ne j SP with h | h
    · subst h
      simp [popStage11, SP, IP]
    · rcases eq_or_ne j IP with ha0 | ha0
      · subst ha0
        simp [popStage10, popStage11, Machine.setReg, SP, IP]
      · rcases eq_or_ne j 11 with ha1 | ha1
        · subst ha1
          simp [popStage10, popStage11, Machine.setReg, SP, IP]
        · rcases eq_or_ne j 10 with ha2 | ha2
          · subst ha2
            simp [popStage10, popStage11, Machine.setReg, SP, IP]
          · rcases eq_or_ne j 9 with ha3 | ha3
            · subst ha3
              simp [popStage10, popStage11, Machine.setReg, SP, IP]
            · rcases eq_or_ne j 8 with ha4 | ha4
              · subst ha4
                simp [popStage10, popStage11, Machine.setReg, SP, IP]
              · rcases eq_or_ne j 7 with ha5 | ha5
                · subst ha5
                  simp [popStage10, popStage11, Machine.setReg, SP, IP]
                · rcases eq_or_ne j 6 with ha6 | ha6
                  · subst ha6
                    simp [popStage10, popStage11, Machine.setReg, SP, IP]
                  · rcases eq_or_ne j 5 with ha7 | ha7
                    · subst ha7
                      simp [popStage10, popStage11, Machine.setReg, SP, IP]
                    · rcases eq_or_ne j 4 with ha8 | ha8
                      · subst ha8
                        simp [popStage10, popStage11, Machine.setReg, SP, IP]
                      · simp [popStage10, popStage11, Machine.setReg, SP, IP, h, ha0, ha1, ha2, ha3, ha4, ha5, ha6, ha7, ha8]
  · rw [sub2_mod _ (by omega) (by omega)]
    show readW m.memory (m.registers FP + 2) - 18 - 2 = readW m.memory (m.registers FP + 2) - 20
    omega

/-- The argument-discard loop of `pop_state`, run from stage 11 with an
argument count of `n`, pops `n` in-bounds words. -/
theorem ret_discard (m : Machine) (n : Nat) (hcap : m.cap ≤ W)
    (hbound : m.registers FP + 23 + 2 * n < m.cap)
    (hfs_lo : 20 + 2 * n ≤ readW m.memory (m.registers FP + 2))
    (hfs_hi : readW m.memory (m.registers FP + 2) < W) :
    (popStage11 m).popDiscard n = some (popStageD m n) := by
  obtain ⟨m1, hrun, hcap1, hsp1, hregs1, hfs1, hmem1⟩ :=
    popDiscard_spec n (popStage11 m)
      (show m.cap ≤ W from hcap)
      (by show m.registers FP + 22 + 2 * n + 1 < m.cap; omega)
      (by show 2 * n ≤ readW m.memory (m.registers FP + 2) - 20; omega)
      (by show readW m.memory (m.registers FP + 2) - 20 < W; omega)
  rw [hrun]
  refine congrArg some (Machine.ext (hcap1.trans rfl) ?_ (hfs1.trans ?_) (hmem1.trans rfl))
  · funext j
    rcases eq_or_ne j SP with h | h
    · subst h
      rw [hsp1]
      simp [popStageD, popStage11]
    · rw [hregs1 j h]
      simp [popStageD, h]
  · show (popStage11 m).stack_frame_size - 2 * n = (popStageD m n).stack_frame_size
    rfl

/-- `pop_state` on a machine whose saved frame-size word (at `FP + 2`) is in
range and whose argument-count word (at `FP + 22`) is `n`, with all eleven
pops and the `n` discards in bounds: the full result written out. -/
theorem pop_state_eq (m : Machine) (n : Nat) (hcap : m.cap ≤ W)
    (hbound : m.registers FP + 23 + 2 * n < m.cap)
    (hfs_lo : 20 + 2 * n ≤ readW m.memory (m.registers FP + 2))
    (hfs_hi : readW m.memory (m.registers FP + 2) < W)
    (hn : readW m.memory (m.registers FP + 22) = n) :
    m.pop_state = some (popResult m n) := by
  simp only [Machine.pop_state,
    ret_step1 m n hcap hbound hfs_lo hfs_hi,
    ret_step2 m n hcap hbound hfs_lo hfs_hi,
    ret_step3 m n hcap hbound hfs_lo hfs_hi,
    ret_step4 m n hcap hbound hfs_lo hfs_hi,
    ret_step5 m n hcap hbound hfs_lo hfs_hi,
    ret_step6 m n hcap hbound hfs_lo hfs_hi,
    ret_step7 m n hcap hbound hfs_lo hfs_hi,
    ret_step8 m n hcap hbound hfs_lo hfs_hi,
    ret_step9 m n hcap hbound hfs_lo hfs_hi,
    ret_step10 m n hcap hbound hfs_lo hfs_hi,
    ret_step11 m n hcap hbound hfs_lo hfs_hi,
    hn,
    ret_discard m n hcap hbound hfs_lo hfs_hi,
    someBind]
  rfl

/-- Register 4 of the `pop_state` result is the word saved at `FP + 20`. -/
theorem popResult_reg4 (M : Machine) (n : Nat) :
    (popResult M n).registers 4 = readW M.memory (M.registers FP + 20) := by
  simp [popResult, popStageD, popStage11, Machine.setReg, SP, IP, FP]

/-- Register 5 of the `pop_state` result is the word saved at `FP + 18`. -/
theorem popResult_reg5 (M : Machine) (n : Nat) :
    (popResult M n).registers 5 = readW M.memory (M.registers FP + 18) := by
  simp [popResult, popStageD, popStage11, Machine.setReg, SP, IP, FP]

/-- Register 6 of the `pop_state` result is the word saved at `FP + 16`. -/
theorem popResult_reg6 (M : Machine) (n : Nat) :
    (popResult M n).registers 6 = readW M.memory (M.registers FP + 16) := by
  simp [popResult, popStageD, popStage11, Machine.setReg, SP, IP, FP]

/-- Register 7 of the `pop_state` result is the word saved at `FP + 14`. -/
theorem popResult_reg7 (M : Machine) (n : Nat) :
    (popResult M n).registers 7 = readW M.memory (M.registers FP + 14) := by
  simp [popResult, popStageD, popStage11, Machine.setReg, SP, IP, FP]

/-- Register 8 of the `pop_state` result is the word saved at `FP + 12`. -/
theorem popResult_reg8 (M : Machine) (n : Nat) :
    (popResult M n).registers 8 = readW M.memory (M.registers FP + 12) := by
  simp [popResult, popStageD, popStage11, Machine.setReg, SP, IP, FP]

/-- Register 9 of the `pop_state` result is the word saved at `FP + 10`. -/
theorem popResult_reg9 (M : Machine) (n : Nat) :
    (popResult M n).registers 9 = readW M.memory (M.registers FP + 10) := by
  simp [popResult, popStageD, popStage11, Machine.setReg, SP, IP, FP]

/-- Register 10 of the `pop_state` result is the word saved at `FP + 8`. -/
theorem popResult_reg10 (M : Machine) (n : Nat) :
    (popResult M n).registers 10 = readW M.memory (M.registers FP + 8) := by
  simp [popResult, popStageD, popStage11, Machine.setReg, SP, IP, FP]

/-- Register 11 of the `pop_state` result is the word saved at `FP + 6`. -/
theorem popResult_reg11 (M : Machine) (n : Nat) :
    (popResult M n).registers 11 = readW M.memory (M.registers FP + 6) := by
  simp [popResult, popStageD, popStage11, Machine.setReg, SP, IP, FP]

/-- The IP of the `pop_state` result is the word saved at `FP + 4`. -/
theorem popResult_ip (M : Machine) (n : Nat) :
    (popResult M n).registers IP = readW M.memory (M.registers FP + 4) := by
  simp [popResult, popStageD, popStage11, Machine.setReg, SP, IP, FP]

/-- The SP of the `pop_state` result: the old FP raised over the eleven
restore pops and the `n` discarded argument words. -/
theorem popResult_sp (M : Machine) (n : Nat) :
    (popResult M n).registers SP = M.registers FP + 22 + 2 * n := by
  simp [popResult, popStageD, popStage11, Machine.setReg, SP, IP, FP]

/-- Claim C1: with arbitrary general-register and IP values, after a single
argument-count push of `0`, executing `CallLit` and then (at the call target)
`Ret` restores all eight general registers R1..R8 (indices 4..11) to their
pre-call values and sets IP to the address immediately after `CallLit`'s
two operand bytes, provided all stack and fetch accesses stay in bounds. -/
theorem call_ret_roundtrip (m : Machine)
    (hcap : m.cap ≤ W)
    (hsp : m.registers SP + 1 < m.cap)
    (hroom : 22 ≤ m.registers SP)
    (hfs : m.stack_frame_size + 22 < W)
    (hip : m.registers IP + 2 < m.cap)
    (hr : ∀ j, m.registers j < W) :
    ∃ m1 mc mr,
      m.push 0 = some m1 ∧
      m1.execute .CallLit = some (mc, none) ∧
      mc.execute .Ret = some (mr, none) ∧
      mr.registers 4 = m.registers 4 ∧
      mr.registers 5 = m.registers 5 ∧
      mr.registers 6 = m.registers 6 ∧
      mr.registers 7 = m.registers 7 ∧
      mr.registers 8 = m.registers 8 ∧
      mr.registers 9 = m.registers 9 ∧
      mr.registers 10 = m.registers 10 ∧
      mr.registers 11 = m.registers 11 ∧
      mr.registers IP = m.registers IP + 2 := by
  obtain ⟨m1, h1, hc1, hs1, hr1, hq1, hm1⟩ := push_spec_ex m 0 hcap hsp (by omega)
  have hq1A : m1.stack_frame_size = m.stack_frame_size + 2 := by
    rw [hq1]
    exact Nat.mod_eq_of_lt (by omega)
  have hip1 : m1.registers IP = m.registers IP := hr1 IP (by decide)
  have hf16 : m1.fetch16 = some (readW m1.memory (m1.registers IP),
      m1.setReg IP (m1.registers IP + 2)) :=
    fetch16_eq m1 (by rw [hip1, hc1]; omega) (by rw [hc1]; exact hcap)
      (by rw [hip1]; omega)
  have hSP2 : (m1.setReg IP (m1.registers IP + 2)).registers SP = m.registers SP - 2 := by
    rw [setReg_registers_ne m1 IP _ SP (by decide)]
    exact hs1
  have hc2 : (m1.setReg IP (m1.registers IP + 2)).cap = m.cap := by
    rw [setReg_cap]
    exact hc1
  have hfs2 : (m1.setReg IP (m1.registers IP + 2)).stack_frame_size = m.stack_frame_size + 2 := by
    rw [setReg_frame]
    exact hq1A
  obtain ⟨m3, hrun3, hc3, hsp3, hfp3, hfs3, hreg3, hmem3,
      hw4, hw5, hw6, hw7, hw8, hw9, hw10, hw11, hwip, hwfs⟩ :=
    push_state_spec (m1.setReg IP (m1.registers IP + 2))
      (by rw [hc2]; exact hcap)
      (by rw [hSP2, hc2]; omega)
      (by rw [hSP2]; omega)
      (by rw [hfs2]; omega)
  rw [hSP2] at hsp3 hfp3 hmem3 hw4 hw5 hw6 hw7 hw8 hw9 hw10 hw11 hwip hwfs
  rw [hc2] at hc3
  rw [hfs2] at hwfs
  have hR4 : (m1.setReg IP (m1.registers IP + 2)).registers 4 = m.registers 4 := by
    rw [setReg_registers_ne m1 IP _ 4 (by decide)]
    exact hr1 4 (by decide)
  rw [hR4, Nat.mod_eq_of_lt (hr 4)] at hw4
  have hR5 : (m1.setReg IP (m1.registers IP + 2)).registers 5 = m.registers 5 := by
    rw [setReg_registers_ne m1 IP _ 5 (by decide)]
    exact hr1 5 (by decide)
  rw [hR5, Nat.mod_eq_of_lt (hr 5)] at hw5
  have hR6 : (m1.setReg IP (m1.registers IP + 2)).registers 6 = m.registers 6 := by
    rw [setReg_registers_ne m1 IP _ 6 (by decide)]
    exact hr1 6 (by decide)
  rw [hR6, Nat.mod_eq_of_lt (hr 6)] at hw6
  have hR7 : (m1.setReg IP (m1.registers IP + 2)).registers 7 = m.registers 7 := by
    rw [setReg_registers_ne m1 IP _ 7 (by decide)]
    exact hr1 7 (by decide)
  rw [hR7, Nat.mod_eq_of_lt (hr 7)] at hw7
  have hR8 : (m1.setReg IP (m1.registers IP + 2)).registers 8 = m.registers 8 := by
    rw [setReg_registers_ne m1 IP _ 8 (by decide)]
    exact hr1 8 (by decide)
  rw [hR8, Nat.mod_eq_of_lt (hr 8)] at hw8
  have hR9 : (m1.setReg IP (m1.registers IP + 2)).registers 9 = m.registers 9 := by
    rw [setReg_registers_ne m1 IP _ 9 (by decide)]
    exact hr1 9 (by decide)
  rw [hR9, Nat.mod_eq_of_lt (hr 9)] at hw9
  have hR10 : (m1.setReg IP (m1.registers IP + 2)).registers 10 = m.registers 10 := by
    rw [setReg_registers_ne m1 IP _ 10 (by decide)]
    exact hr1 10 (by decide)
  rw [hR10, Nat.mod_eq_of_lt (hr 10)] at hw10
  have hR11 : (m1.setReg IP (m1.registers IP + 2)).registers 11 = m.registers 11 := by
    rw [setReg_registers_ne m1 IP _ 11 (by decide)]
    exact hr1 11 (by decide)
  rw [hR11, Nat.mod_eq_of_lt (hr 11)] at hw11
  have hRip : (m1.setReg IP (m1.registers IP + 2)).registers IP = m.registers IP + 2 := by
    rw [setReg_registers_same, hip1]
  rw [hRip, Nat.mod_eq_of_lt (by omega)] at hwip
  rw [show m.registers SP - 2 - 2 = m.registers SP - 4 from by omega] at hw5
  rw [show m.registers SP - 2 - 4 = m.registers SP - 6 from by omega] at hw6
  rw [show m.registers SP - 2 - 6 = m.registers SP - 8 from by omega] at hw7
  rw [show m.registers SP - 2 - 8 = m.registers SP - 10 from by omega] at hw8
  rw [show m.registers SP - 2 - 10 = m.registers SP - 12 from by omega] at hw9
  rw [show m.registers SP - 2 - 12 = m.registers SP - 14 from by omega] at hw10
  rw [show m.registers SP - 2 - 14 = m.registers SP - 16 from by omega] at hw11
  rw [show m.registers SP - 2 - 16 = m.registers SP - 18 from by omega] at hwip
  rw [show m.registers SP - 2 - 18 = m.registers SP - 20 from by omega] at hwfs
  rw [show m.registers SP - 2 - 20 = m.registers SP - 22 from by omega] at hsp3 hfp3
  have hm3up : ∀ x, m.registers SP ≤ x → m3.memory x = m1.memory x := by
    intro x hx
    exact (hmem3 x (Or.inr (by omega))).trans rfl
  have hw0 : readW m3.memory (m.registers SP) = 0 := by
    rw [readW_congr m3.memory m1.memory _ (hm3up _ (by omega)) (hm3up _ (by omega))]
    rw [readW_congr m1.memory (writeW m.memory (m.registers SP) 0) _ (hm1 _) (hm1 _)]
    rw [readW_writeW]
    exact Nat.zero_mod W
  have hexec1 : m1.execute .CallLit =
      some ((m3.setReg IP (readW m1.memory (m1.registers IP))), none) := by
    simp only [Machine.execute, hf16, someBind, hrun3]
  have hFPc : (m3.setReg IP (readW m1.memory (m1.registers IP))).registers FP = m.registers SP - 22 := by
    rw [setReg_registers_ne m3 IP _ FP (by decide)]
    exact hfp3
  have hcapC : (m3.setReg IP (readW m1.memory (m1.registers IP))).cap = m.cap := by
    rw [setReg_cap]
    exact hc3
  have hps := pop_state_eq (m3.setReg IP (readW m1.memory (m1.registers IP))) 0
    (by rw [hcapC]; exact hcap)
    (by rw [hFPc, hcapC]; omega)
    (by rw [setReg_memory, hFPc,
          show m.registers SP - 22 + 2 = m.registers SP - 20 from by omega, hwfs]
        omega)
    (by rw [setReg_memory, hFPc,
          show m.registers SP - 22 + 2 = m.registers SP - 20 from by omega, hwfs]
        omega)
    (by rw [setReg_memory, hFPc,
          show m.registers SP - 22 + 22 = m.registers SP from by omega, hw0])
  have hexec2 : (m3.setReg IP (readW m1.memory (m1.registers IP))).execute .Ret = some (popResult (m3.setReg IP (readW m1.memory (m1.registers IP))) 0, none) := by
    simp only [Machine.execute, hps, someBind]
  refine ⟨m1, (m3.setReg IP (readW m1.memory (m1.registers IP))), popResult (m3.setReg IP (readW m1.memory (m1.registers IP))) 0, h1, hexec1, hexec2, ?_, ?_, ?_, ?_, ?_, ?_, ?_, ?_, ?_⟩
  · rw [popResult_reg4, setReg_memory, hFPc,
      show m.registers SP - 22 + 20 = m.registers SP - 2 from by omega]
    exact hw4
  · rw [popResult_reg5, setReg_memory, hFPc,
      show m.registers SP - 22 + 18 = m.registers SP - 4 from by omega]
    exact hw5
  · rw [popResult_reg6, setReg_memory, hFPc,
      show m.registers SP - 22 + 16 = m.registers SP - 6 from by omega]
    exact hw6
  · rw [popResult_reg7, setReg_memory, hFPc,
      show m.registers SP - 22 + 14 = m.registers SP - 8 from by omega]
    exact hw7
  · rw [popResult_reg8, setReg_memory, hFPc,
      show m.registers SP - 22 + 12 = m.registers SP - 10 from by omega]
    exact hw8
  · rw [popResult_reg9, setReg_memory, hFPc,
      show m.registers SP - 22 + 10 = m.registers SP - 12 from by omega]
    exact hw9
  · rw [popResult_reg10, setReg_memory, hFPc,
      show m.registers SP - 22 + 8 = m.registers SP - 14 from by omega]
    exact hw10
  · rw [popResult_reg11, setReg_memory, hFPc,
      show m.registers SP - 22 + 6 = m.registers SP - 16 from by omega]
    exact hw11
  · rw [popResult_ip, setReg_memory, hFPc,
      show m.registers SP - 22 + 4 = m.registers SP - 18 from by omega]
    exact hwip

/-- Claim C3: `CallLit`'s and `CallReg`'s state save is exactly the sequence:
push R1..R8 in ascending order, push the current IP (already advanced past
the call's operands by the operand fetch), push the frame-size counter plus 2,
set FP to the resulting SP, and clear the frame-size counter — followed only
by the jump that loads IP with the call target. -/
theorem call_saves_state (m : Machine)
    (hcap : m.cap ≤ W) (hsp : m.registers SP + 1 < m.cap)
    (hroom : 20 ≤ m.registers SP) (hf : m.stack_frame_size + 20 < W)
    (hip : m.registers IP + 2 < m.cap)
    (hb : m.memory (m.registers IP) ≤ 11) :
    ∃ mv mw,
      (m.setReg IP (m.registers IP + 2)).pushValues
          (savedWords (m.setReg IP (m.registers IP + 2))) = some mv ∧
      m.execute .CallLit =
        some ((({ mv.setReg FP (mv.registers SP) with stack_frame_size := 0 } : Machine)).setReg IP
          (readW m.memory (m.registers IP)), none) ∧
      (m.setReg IP (m.registers IP + 1)).pushValues
          (savedWords (m.setReg IP (m.registers IP + 1))) = some mw ∧
      m.execute .CallReg =
        some ((({ mw.setReg FP (mw.registers SP) with stack_frame_size := 0 } : Machine)).setReg IP
          ((m.setReg IP (m.registers IP + 1)).registers (m.memory (m.registers IP))), none) := by
  have hf16 : m.fetch16 = some (readW m.memory (m.registers IP),
      m.setReg IP (m.registers IP + 2)) :=
    fetch16_eq m (by omega) hcap (by omega)
  have hfr : m.fetch_register_id =
      some (.ok (m.memory (m.registers IP)), m.setReg IP (m.registers IP + 1)) :=
    fetch_register_id_ok m (by omega) (by omega) hb
  obtain ⟨mv, hpv, hps⟩ := push_state_runs (m.setReg IP (m.registers IP + 2))
    (by rw [setReg_cap]; exact hcap)
    (by rw [setReg_registers_ne m IP _ SP (by decide), setReg_cap]; omega)
    (by rw [setReg_registers_ne m IP _ SP (by decide)]; omega)
    (by rw [setReg_frame]; omega)
  obtain ⟨mw, hpw, hqs⟩ := push_state_runs (m.setReg IP (m.registers IP + 1))
    (by rw [setReg_cap]; exact hcap)
    (by rw [setReg_registers_ne m IP _ SP (by decide), setReg_cap]; omega)
    (by rw [setReg_registers_ne m IP _ SP (by decide)]; omega)
    (by rw [setReg_frame]; omega)
  refine ⟨mv, mw, hpv, ?_, hpw, ?_⟩
  · simp only [Machine.execute, hf16, someBind, hps]
  · simp only [Machine.execute, hfr, regBind_ok, hqs, someBind]

/-- Witness for C3 on a concrete machine (fresh 64-byte machine; the byte at
IP is 0, a valid register id). -/
theorem call_saves_state_witness :
    ∃ mv mw,
      ((Machine.new 64).setReg IP ((Machine.new 64).registers IP + 2)).pushValues
          (savedWords ((Machine.new 64).setReg IP ((Machine.new 64).registers IP + 2))) = some mv ∧
      (Machine.new 64).execute .CallLit =
        some ((({ mv.setReg FP (mv.registers SP) with stack_frame_size := 0 } : Machine)).setReg IP
          (readW (Machine.new 64).memory ((Machine.new 64).registers IP)), none) ∧
      ((Machine.new 64).setReg IP ((Machine.new 64).registers IP + 1)).pushValues
          (savedWords ((Machine.new 64).setReg IP ((Machine.new 64).registers IP + 1))) = some mw ∧
      (Machine.new 64).execute .CallReg =
        some ((({ mw.setReg FP (mw.registers SP) with stack_frame_size := 0 } : Machine)).setReg IP
          (((Machine.new 64).setReg IP ((Machine.new 64).registers IP + 1)).registers
            ((Machine.new 64).memory ((Machine.new 64).registers IP))), none) :=
  call_saves_state (Machine.new 64) (by decide) (by decide) (by decide) (by decide)
    (by decide) (by decide)

/-- Witness for C1 on a fresh 64-byte machine. -/
theorem call_ret_roundtrip_witness :
    ∃ m1 mc mr,
      (Machine.new 64).push 0 = some m1 ∧
      m1.execute .CallLit = some (mc, none) ∧
      mc.execute .Ret = some (mr, none) ∧
      mr.registers 4 = (Machine.new 64).registers 4 ∧
      mr.registers 5 = (Machine.new 64).registers 5 ∧
      mr.registers 6 = (Machine.new 64).registers 6 ∧
      mr.registers 7 = (Machine.new 64).registers 7 ∧
      mr.registers 8 = (Machine.new 64).registers 8 ∧
      mr.registers 9 = (Machine.new 64).registers 9 ∧
      mr.registers 10 = (Machine.new 64).registers 10 ∧
      mr.registers 11 = (Machine.new 64).registers 11 ∧
      mr.registers IP = (Machine.new 64).registers IP + 2 :=
  call_ret_roundtrip (Machine.new 64) (by decide) (by decide) (by decide) (by decide)
    (by decide) (by intro j; simp only [Machine.new]; split <;> first | decide | (split <;> decide))

/-- Counterexample to C4 as stated: with k = 1 (one pushed argument word and
an argument-count word of 1), after `CallLit`/`Ret` the SP equals its value
immediately before the two pushes — it is not `2 * (k + 1)` bytes above it. -/
theorem sp_not_raised_after_ret :
    (Machine.new 100).pushValues [7, 1] = some c4m1 ∧
    c4m1.execute .CallLit = some (c4m2, none) ∧
    c4m2.execute .Ret = some (c4m3, none) ∧
    c4m3.registers SP = (Machine.new 100).registers SP ∧
    c4m3.registers SP ≠ (Machine.new 100).registers SP + 2 * (1 + 1) :=
  ⟨rfl, rfl, rfl, rfl, by decide⟩

/-- Amended C4: pushing `k` literal words and then the argument-count word
`k`, executing `CallLit` and, in the callee, `Ret`, returns SP exactly to its
value before those `k + 1` pushes — equivalently, leaves it `k + 1` words
(2*(k+1) bytes) higher than SP was immediately before `CallLit`. -/
theorem arg_discard_sp (m : Machine) (vs : List Nat)
    (hcap : m.cap ≤ W)
    (hsp : m.registers SP + 1 < m.cap)
    (hroom : 2 * vs.length + 22 ≤ m.registers SP)
    (hfs : m.stack_frame_size + 2 * vs.length + 22 < W)
    (hip : m.registers IP + 2 < m.cap) :
    ∃ ma mc mr,
      m.pushValues (vs ++ [vs.length]) = some ma ∧
      ma.execute .CallLit = some (mc, none) ∧
      mc.execute .Ret = some (mr, none) ∧
      ma.registers SP + 2 * (vs.length + 1) = m.registers SP ∧
      mr.registers SP = m.registers SP := by
  have hlen : (vs ++ [vs.length]).length = vs.length + 1 := by simp
  obtain ⟨ma, hA, hcA, hsA, hrA, hfA, hmA, hwA⟩ :=
    pushValues_spec (vs ++ [vs.length]) m hcap hsp (by rw [hlen]; omega) (by rw [hlen]; omega)
  rw [hlen] at hsA hfA
  have hk : vs.length < W := by omega
  have hcnt : readW ma.memory (m.registers SP - 2 * vs.length) = vs.length := by
    have h := hwA vs.length (by simp)
    simp only [List.get_eq_getElem, List.getElem_concat_length] at h
    rw [Nat.mod_eq_of_lt hk] at h
    exact h
  have hipA : ma.registers IP = m.registers IP := hrA IP (by decide)
  have hf16 : ma.fetch16 = some (readW ma.memory (ma.registers IP),
      ma.setReg IP (ma.registers IP + 2)) :=
    fetch16_eq ma (by rw [hipA, hcA]; omega) (by rw [hcA]; exact hcap) (by rw [hipA]; omega)
  have hSPt : (ma.setReg IP (ma.registers IP + 2)).registers SP
      = m.registers SP - (2 * vs.length + 2) := by
    rw [setReg_registers_ne ma IP _ SP (by decide), hsA]
    omega
  have hct : (ma.setReg IP (ma.registers IP + 2)).cap = m.cap := by
    rw [setReg_cap]
    exact hcA
  have hft : (ma.setReg IP (ma.registers IP + 2)).stack_frame_size
      = m.stack_frame_size + (2 * vs.length + 2) := by
    rw [setReg_frame, hfA]
    omega
  obtain ⟨m3, hrun3, hc3, hsp3, hfp3, hfs3, hreg3, hmem3,
      hw4, hw5, hw6, hw7, hw8, hw9, hw10, hw11, hwip, hwfs⟩ :=
    push_state_spec (ma.setReg IP (ma.registers IP + 2))
      (by rw [hct]; exact hcap)
      (by rw [hSPt, hct]; omega)
      (by rw [hSPt]; omega)
      (by rw [hft]; omega)
  rw [hSPt] at hfp3 hmem3 hwfs
  rw [hft] at hwfs
  rw [hct] at hc3
  rw [show m.registers SP - (2 * vs.length + 2) - 20
      = m.registers SP - (2 * vs.length + 22) from by omega] at hfp3
  rw [show m.registers SP - (2 * vs.length + 2) - 18
      = m.registers SP - (2 * vs.length + 20) from by omega] at hwfs
  have hm3up : ∀ x, m.registers SP - 2 * vs.length ≤ x → m3.memory x = ma.memory x := by
    intro x hx
    exact (hmem3 x (Or.inr (by omega))).trans rfl
  have hcnt3 : readW m3.memory (m.registers SP - 2 * vs.length) = vs.length := by
    rw [readW_congr m3.memory ma.memory _ (hm3up _ (by omega)) (hm3up _ (by omega))]
    exact hcnt
  have hexec1 : ma.execute .CallLit
      = some ((m3.setReg IP (readW ma.memory (ma.registers IP))), none) := by
    simp only [Machine.execute, hf16, someBind, hrun3]
  have hFPc : (m3.setReg IP (readW ma.memory (ma.registers IP))).registers FP
      = m.registers SP - (2 * vs.length + 22) := by
    rw [setReg_registers_ne m3 IP _ FP (by decide)]
    exact hfp3
  have hcapC : (m3.setReg IP (readW ma.memory (ma.registers IP))).cap = m.cap := by
    rw [setReg_cap]
    exact hc3
  have hps := pop_state_eq (m3.setReg IP (readW ma.memory (ma.registers IP))) vs.length
    (by rw [hcapC]; exact hcap)
    (by rw [hFPc, hcapC]; omega)
    (by rw [setReg_memory, hFPc,
          show m.registers SP - (2 * vs.length + 22) + 2
            = m.registers SP - (2 * vs.length + 20) from by omega, hwfs]
        omega)
    (by rw [setReg_memory, hFPc,
          show m.registers SP - (2 * vs.length + 22) + 2
            = m.registers SP - (2 * vs.length + 20) from by omega, hwfs]
        omega)
    (by rw [setReg_memory, hFPc,
          show m.registers SP - (2 * vs.length + 22) + 22
            = m.registers SP - 2 * vs.length from by omega, hcnt3])
  have hexec2 : (m3.setReg IP (readW ma.memory (ma.registers IP))).execute .Ret =
      some (popResult (m3.setReg IP (readW ma.memory (ma.registers IP))) vs.length, none) := by
    simp only [Machine.execute, hps, someBind]
  refine ⟨ma, _, _, hA, hexec1, hexec2, ?_, ?_⟩
  · rw [hsA]
    omega
  · rw [popResult_sp, setReg_registers_ne m3 IP _ FP (by decide), hfp3]
    omega

/-- Witness for the amended C4 with one literal argument on a fresh machine. -/
theorem arg_discard_sp_witness :
    ∃ ma mc mr,
      (Machine.new 64).pushValues ([7] ++ [[7].length]) = some ma ∧
      ma.execute .CallLit = some (mc, none) ∧
      mc.execute .Ret = some (mr, none) ∧
      ma.registers SP + 2 * (([7] : List Nat).length + 1) = (Machine.new 64).registers SP ∧
      mr.registers SP = (Machine.new 64).registers SP :=
  arg_discard_sp (Machine.new 64) [7] (by decide) (by decide) (by decide) (by decide) (by decide)

end ToyVM
